import Mathlib

/-!
Shallow embedding of `pyFAST/executor.py` (the regression-test Executor of
the openfast_toolbox repository) and verification of the frozen claims
about it.

Conventions of the embedding:
* Filesystem paths are lists of path segments (`FsPath := List String`);
  `os.path.join(a, b)` becomes `a ++ [b]`.
* Python exceptions become `Except Err`; each `Err` constructor names the
  Python exception class it stands for.
* External collaborators from `pyfast.utilities` (not part of src/) are
  modelled from the spec as oracles passed in environment records, or as
  small definitions whose doc comment starts with `Modelled from the spec:`.
* Machine integers are `Int`/`Nat`; `int(np.ceil(cpu_count() * 0.8))` is
  modelled as the exact rational ceiling `⌈4·cpu/5⌉ = (4*cpu + 4) / 5`
  (for every cpu count below 2^53 the double-precision computation agrees
  with the exact one, since the relative error of the double nearest to
  0.8 is 2^-54, below every half-ulp threshold at an integer product).
-/

/-- Python exceptions raised by the code under `src/pyFAST/executor.py`
or by its collaborators. -/
inductive Err where
  /-- `KeyError` from a dict lookup (`SYSTEM_MAP[...]`, `CASE_MAP[...]`). -/
  | keyError (k : String)
  /-- `FileNotFoundError` (missing file or copy source). -/
  | fileNotFound (p : List String)
  /-- `ValueError` (failed validation, `list.index` miss). -/
  | valueError (msg : String)
  /-- `NameError` (reference to an unbound variable). -/
  | nameError (n : String)
  /-- `IsADirectoryError` (`shutil.copy2` with a directory source). -/
  | isADirectory (p : List String)
  /-- `FileExistsError` (`shutil.copytree` onto an existing directory). -/
  | fileExists (p : List String)
  /-- Failure of `pyfast.utilities.validate_executable`. -/
  | invalidExecutable (p : String)
  /-- Failure of `pyfast.utilities.validate_directory`. -/
  | invalidDirectory (p : String)
  /-- `TypeError` from calling the named function with the wrong number
  of arguments. -/
  | typeError (n : String)
  deriving DecidableEq, Repr

/-- A filesystem path, as a list of segments. -/
abbrev FsPath := List String

/-- `str.lower()`, reimplemented structurally over the character list so
that concrete instances reduce in the kernel (identical to
`String.toLower` on the ASCII identifiers used by the Executor). -/
def strToLower (s : String) : String := ⟨s.data.map Char.toLower⟩

/-- `str.endswith(suffix)`, reimplemented structurally over the
character lists (identical to `String.endsWith`). -/
def strEndsWith (s suffix : String) : Bool := suffix.data.isSuffixOf s.data

/-- `str.split("/")` over a character list (identical to
`String.splitOn "/"`), reimplemented structurally so that concrete
instances reduce in the kernel. -/
def splitSeg : List Char → List String
  | [] => [""]
  | c :: cs =>
    match splitSeg cs with
    | [] => [""]
    | s :: rest =>
      if c = '/' then "" :: s :: rest else (⟨c :: s.data⟩ : String) :: rest

/-- `str.split("/")`, as used for `pathlib.Path` construction in the
model. -/
def parsePath (s : String) : FsPath := splitSeg s.data

/-- `"/".join(p)`, rendering a path back to a string for the oracles. -/
def joinPath (p : FsPath) : String := String.intercalate "/" p

/-- The three case categories of `CASE_MAP`. -/
inductive Category where
  | regression
  | linear
  | beamdyn
  deriving DecidableEq, Repr

/-- `SYSTEM_MAP` from executor.py line 25. -/
def SYSTEM_MAP : List (String × String) :=
  [("Darwin", "macos"), ("Linux", "linux"), ("Windows", "windows")]

/-- `CASE_MAP` from executor.py lines 27-64: the static case catalog. -/
def CASE_MAP : List (String × Category) :=
  [("5MW_ITIBarge_DLL_WTurb_WavesIrr", .regression),
   ("5MW_Land_BD_DLL_WTurb", .regression),
   ("5MW_Land_BD_Linear", .linear),
   ("5MW_Land_DLL_WTurb", .regression),
   ("5MW_OC3Mnpl_DLL_WTurb_WavesIrr", .regression),
   ("5MW_OC3Spar_DLL_WTurb_WavesIrr", .regression),
   ("5MW_OC3Trpd_DLL_WSt_WavesReg", .regression),
   ("5MW_OC4Jckt_DLL_WTurb_WavesIrr_MGrowth", .regression),
   ("5MW_OC4Semi_WSt_WavesWN", .regression),
   ("5MW_TLP_DLL_WTurb_WavesIrr_WavesMulti", .regression),
   ("AOC_WSt", .regression),
   ("AOC_YFix_WSt", .regression),
   ("AOC_YFree_WTurb", .regression),
   ("AWT_WSt_StartUpShutDown", .regression),
   ("AWT_WSt_StartUp_HighSpShutDown", .regression),
   ("AWT_YFix_WSt", .regression),
   ("AWT_YFree_WSt", .regression),
   ("AWT_YFree_WTurb", .regression),
   ("Ideal_Beam_Fixed_Free_Linear", .linear),
   ("Ideal_Beam_Free_Free_Linear", .linear),
   ("SWRT_YFree_VS_EDC01", .regression),
   ("SWRT_YFree_VS_EDG01", .regression),
   ("SWRT_YFree_VS_WTurb", .regression),
   ("UAE_Dnwind_YRamp_WSt", .regression),
   ("UAE_Upwind_Rigid_WRamp_PwrCurve", .regression),
   ("WP_Stationary_Linear", .linear),
   ("WP_VSP_ECD", .regression),
   ("WP_VSP_WTurb", .regression),
   ("WP_VSP_WTurb_PitchFail", .regression),
   ("bd_5MW_dynamic", .beamdyn),
   ("bd_5MW_dynamic_gravity_Az00", .beamdyn),
   ("bd_5MW_dynamic_gravity_Az90", .beamdyn),
   ("bd_curved_beam", .beamdyn),
   ("bd_isotropic_rollup", .beamdyn),
   ("bd_static_cantilever_beam", .beamdyn),
   ("bd_static_twisted_with_k1", .beamdyn)]

/-- `CASE_MAP[case]`: dict lookup raising `KeyError` on a miss. -/
def case_map_lookup (c : String) : Except Err Category :=
  match CASE_MAP.lookup c with
  | some k => .ok k
  | none => .error (.keyError c)

/-- Effectful `map` over a list, stopping at the first raised exception
(the semantics of a Python `for` loop building a list). -/
def exceptMapM {α β : Type} (f : α → Except Err β) : List α → Except Err (List β)
  | [] => .ok []
  | x :: xs =>
    match f x with
    | .error err => .error err
    | .ok y =>
      match exceptMapM f xs with
      | .error err => .error err
      | .ok ys => .ok (y :: ys)

/-- Effectful fold over a list, stopping at the first raised exception
(the semantics of a Python `for` loop threading a state). -/
def exceptFoldl {σ α : Type} (f : σ → α → Except Err σ) : σ → List α → Except Err σ
  | st, [] => .ok st
  | st, x :: xs =>
    match f st x with
    | .error err => .error err
    | .ok st' => exceptFoldl f st' xs

/-- The value stored in `self.of_executable` / `self.bd_executable`:
either the raw `source` string it is initialized with (line 211-212) or a
`FsPath` built from an entry of the `executable` argument (lines 213-217).
In Python a `str` never compares equal to a `FsPath`, which the
`_validate_inputs` guards rely on. -/
inductive ExeRef where
  | srcStr (s : String)
  | path (p : FsPath)
  deriving DecidableEq, Repr

/-- The `!=` comparison `self.xx_executable != self.source` from
executor.py lines 229 and 231, where `self.source` is a `FsPath`:
a `str` value is never equal to a `FsPath`. -/
def ExeRef.neqSource : ExeRef → FsPath → Bool
  | .srcStr _, _ => true
  | .path p, src => p ≠ src

/-- Render an executable reference back to a string for the validation
oracle. -/
def ExeRef.render : ExeRef → String
  | .srcStr s => s
  | .path p => joinPath p

/-- The executable-selection loop of `Executor.__init__`
(executor.py lines 211-217): start from the `source` string, then for
each entry a path ending in `"openfast"` replaces the general executable
and a path ending in `"beamdyn_driver"` replaces the beamdyn driver.
Returns `(of_executable, bd_executable)`. -/
def selectExecutables (executable : List String) (source : String) :
    ExeRef × ExeRef :=
  executable.foldl
    (fun acc exe =>
      if strEndsWith exe "openfast" then (.path (parsePath exe), acc.2)
      else if strEndsWith exe "beamdyn_driver" then (acc.1, .path (parsePath exe))
      else acc)
    (.srcStr source, .srcStr source)

/-- `int(np.ceil(cpu_count() * 0.8))` as the exact ceiling `⌈4·cpu/5⌉`. -/
def ceil_cpu_80 (cpu : Nat) : Nat := (4 * cpu + 4) / 5

/-- The concurrency resolution of the Executor: the normalization
`self.jobs = jobs if jobs != 0 else -1` (executor.py line 206) followed by
the checks of `_validate_inputs` (lines 240-247), with `cpu` the value of
`multiprocessing.cpu_count()` and `n_cases` the length of `self.case`. -/
def resolve_jobs (jobs : Int) (cpu : Nat) (n_cases : Nat) : Except Err Int :=
  let jobs := if jobs = 0 then -1 else jobs
  if jobs < -1 then .error (.valueError "Input 'jobs' cannot be negative!")
  else
    let jobs := if jobs = -1 then (ceil_cpu_80 cpu : Int) else jobs
    let jobs := if jobs > 0 then min jobs (cpu : Int) else jobs
    let jobs := if jobs > (n_cases : Int) then (n_cases : Int) else jobs
    .ok jobs

/-- The state of an `Executor` instance (the attributes set by
`__init__`, `_validate_inputs` and `_build_directory_references`).
`warnings` records the console warnings printed so far. -/
structure Executor where
  cases : List String
  compiler : String
  output_type : String
  source : FsPath
  build : FsPath
  verbose : Bool
  execution : Bool
  tolerance : Rat
  plot : Int
  plot_path : Option String
  jobs : Int
  rtest : FsPath
  module : FsPath
  of_executable : ExeRef
  bd_executable : ExeRef
  inputs : List FsPath
  outputs : List FsPath
  test_build : List FsPath
  warnings : List String
  deriving DecidableEq, Repr

/-- The case selector argument: a single name, a list of names, or the
literal `"all"`. -/
inductive CaseArg where
  | all
  | one (c : String)
  | many (cs : List String)
  deriving DecidableEq, Repr

/-- The arguments of `Executor.__init__`. -/
structure InitArgs where
  caseArg : CaseArg
  executable : List String
  source : String
  compiler : String
  system : Option String
  tolerance : Rat
  plot : Int
  plot_path : Option String
  execution : Bool
  verbose : Bool
  jobs : Int

/-- The ambient environment of the constructor: the host OS name
(`platform.system()`), the machine parallelism (`cpu_count()`), and the
two `pyfast.utilities` validation collaborators.

Modelled from the spec: `validate_executable` and `validate_directory`
are not under src/; per the configuration-error taxonomy they raise
eagerly when the executable path or the build directory is invalid, which
the oracles decide. -/
structure Env where
  hostSystem : String
  cpuCount : Nat
  isValidExecutable : String → Bool
  isValidDirectory : String → Bool

/-- `Executor._validate_inputs` (executor.py lines 221-247): output-type
fallback, executable and directory validation, plot-flag check, and
concurrency resolution, in source order (each guard raises exactly when
the corresponding Python statement would). -/
def Executor.validate_inputs (env : Env) (e : Executor) : Except Err Executor :=
  let opts := ["macos-gnu", "linux-intel", "linux-gnu", "windows-intel"]
  let output_type := if opts.contains e.output_type then e.output_type else "macos-gnu"
  let warnings :=
    if opts.contains e.output_type then e.warnings
    else e.warnings ++ ["Defaulting to macos-gnu for output type"]
  if e.bd_executable.neqSource e.source &&
      !env.isValidExecutable e.bd_executable.render then
    .error (.invalidExecutable e.bd_executable.render)
  else if e.of_executable.neqSource e.source &&
      !env.isValidExecutable e.of_executable.render then
    .error (.invalidExecutable e.of_executable.render)
  else if !env.isValidDirectory (joinPath e.build) then
    .error (.invalidDirectory (joinPath e.build))
  else if !([0, 1, 2] : List Int).contains e.plot then
    .error (.valueError "Input 'plot' must be one of (0, 1, 2)!")
  else
    match resolve_jobs e.jobs env.cpuCount e.cases.length with
    | .error err => .error err
    | .ok jobs =>
      .ok { e with output_type := output_type, warnings := warnings, jobs := jobs }

/-- `Executor.__init__` (executor.py lines 134-219): resolves the system
name through `SYSTEM_MAP` (a `KeyError` on unknown systems), expands the
case selector, derives the path attributes, normalizes `jobs`, selects the
executables and runs `_validate_inputs`. Note that no case name is looked
up in `CASE_MAP` here. -/
def Executor.init (env : Env) (a : InitArgs) : Except Err Executor :=
  match SYSTEM_MAP.lookup (a.system.getD env.hostSystem) with
  | none => .error (.keyError (a.system.getD env.hostSystem))
  | some system =>
  let cases :=
    match a.caseArg with
    | .all => CASE_MAP.map (·.1)
    | .one c => [c]
    | .many cs => cs
  let source := parsePath a.source
  let (ofE, bdE) := selectExecutables a.executable a.source
  let e : Executor :=
    { cases := cases
      compiler := a.compiler
      output_type := system ++ "-" ++ strToLower a.compiler
      source := source
      build := source ++ ["build"]
      verbose := a.verbose
      execution := a.execution
      tolerance := a.tolerance
      plot := a.plot
      plot_path := a.plot_path
      jobs := if a.jobs = 0 then -1 else a.jobs
      rtest := source ++ ["reg_tests", "r-test"]
      module := source ++ ["reg_tests", "r-test", "glue-codes", "openfast"]
      of_executable := ofE
      bd_executable := bdE
      inputs := []
      outputs := []
      test_build := []
      warnings := [] }
  e.validate_inputs env

/-- `Executor._build_directory_references` for one case (executor.py
lines 345-351): the input directory, baseline-output directory and local
build directory of a case, after a `CASE_MAP` lookup that raises
`KeyError` for an unregistered name. -/
def buildRefEntry (e : Executor) (c : String) : Except Err (FsPath × FsPath × FsPath) :=
  match case_map_lookup c with
  | .error err => .error err
  | .ok cat =>
    let inp :=
      if cat = .beamdyn then e.rtest ++ ["modules", "beamdyn", c]
      else e.module ++ [c]
    .ok (inp, inp ++ [e.output_type], e.build ++ ["local_results", c])

/-- `Executor._build_directory_references` (executor.py lines 339-351). -/
def Executor.build_directory_references (e : Executor) : Except Err Executor :=
  match exceptMapM (buildRefEntry e) e.cases with
  | .error err => .error err
  | .ok triples =>
    .ok { e with
      inputs := triples.map (·.1)
      outputs := triples.map (·.2.1)
      test_build := triples.map (·.2.2) }

/-- The environment of the dispatch phase.

Modelled from the spec: `run_openfast_case` from `pyfast.utilities` (not
under src/) launches the external binary and, per §4.3, "each task yields
(exit code, case identity, ordinal index)"; the oracle maps
(executable, case input file, ordinal string, case name) to the exit
code of the external process. -/
structure DispatchEnv where
  runCase : ExeRef → FsPath → String → String → Int

/-- The ordinal string `f"{i}/{n_cases}"` (executor.py line 389). -/
def mkOrdinal (i n : Nat) : String := toString i ++ "/" ++ toString n

/-- `Executor._run_single_case` (executor.py lines 353-381): selects the
executable and input file from the case category and runs the external
process, returning `(code, ix, case)`. The `CASE_MAP` lookup raises
`KeyError` for an unregistered case name. -/
def Executor.run_single_case (e : Executor) (env : DispatchEnv)
    (args : String × String × FsPath) : Except Err (Int × String × String) :=
  let (ix, c, test_build) := args
  match case_map_lookup c with
  | .error err => .error err
  | .ok cat =>
    let beamdyn := cat = .beamdyn
    let (exe, case_input) :=
      if beamdyn then (e.bd_executable, test_build ++ ["bd_driver.inp"])
      else (e.of_executable, test_build ++ [c ++ ".fst"])
    .ok (env.runCase exe case_input ix c, ix, c)

/-- `Executor._run_openfast_cases` (executor.py lines 383-393): builds
the `(ix, case, test_build)` argument triples (`zip` truncates to the
shortest list, as in Python) and maps `_run_single_case` over them.
`Pool.map` returns results in argument order regardless of completion
order, so it is modelled as an order-preserving `mapM`; the pool size
`self.jobs` does not affect the value of the result list. -/
def Executor.run_openfast_cases (e : Executor) (env : DispatchEnv) :
    Except Err (List (Int × String × String)) :=
  let n := e.cases.length
  let ix := (List.range n).map (fun i => mkOrdinal (i + 1) n)
  let arguments := ix.zip (e.cases.zip e.test_build)
  exceptMapM (e.run_single_case env) arguments

/-- The console tally of `_run_openfast_cases` (executor.py lines
395-404): the number of cases whose exit code is zero, out of the total.
A non-zero code only moves a case from the success count to the failure
list; nothing is raised. -/
def dispatchTally (results : List (Int × String × String)) : Nat × Nat :=
  ((results.filter (fun r => r.1 = 0)).length, results.length)

/-- `pyfast.utilities.validate_file`.

Modelled from the spec: `validate_file` is not under src/; per the spec a
missing output file is an error condition detected at the file check
(§4.4: the loader "fails ... if the path does not exist"; §4.2 names the
exception `FileNotFoundError` for missing fixtures), so the model raises
`FileNotFoundError` exactly when the existence oracle denies the path. -/
def validate_file (hasFile : FsPath → Bool) (p : FsPath) : Except Err Unit :=
  if hasFile p then .ok () else .error (.fileNotFound p)

/-- The environment of the output-reading phase: the existence oracle
behind `validate_file`, and `load_output` from `pyfast.utilities`.

Modelled from the spec: `load_output` (not under src/) converts an output
file into a channel matrix plus metadata (§4.4) and fails with a format
error when the file cannot be parsed; the payload type `α` is abstract
because the claims only track identity and multiplicity of the loaded
data, never its numeric content. -/
structure ReadEnv (α : Type) where
  hasFile : FsPath → Bool
  loadOutput : FsPath → Except Err α

/-- `_get_linear_out_files` (executor.py lines 67-71): the intentional
zero-parameter stub, yielding no file pair when called with zero
arguments. `read_out_files` never calls it this way — its uniform call
site passes three arguments (see `func_map`) — so this body is
unreachable from the executor. -/
def get_linear_out_files : Except Err (Option (FsPath × FsPath)) :=
  .ok none

/-- `_get_regression_out_files` (executor.py lines 74-95): the
`<case>.outb` pair under the local build directory and the baseline
directory, each checked with `validate_file`. -/
def get_regression_out_files (hasFile : FsPath → Bool) (c : String)
    (out_dir baseline_dir : FsPath) : Except Err (Option (FsPath × FsPath)) :=
  let case_file := c ++ ".outb"
  let local_file := out_dir ++ [case_file]
  let baseline := baseline_dir ++ [case_file]
  match validate_file hasFile local_file with
  | .error err => .error err
  | .ok _ =>
    match validate_file hasFile baseline with
    | .error err => .error err
    | .ok _ => .ok (some (local_file, baseline))

/-- `_get_beamdyn_out_files` (executor.py lines 98-118): the
`bd_driver.out` pair, each checked with `validate_file`. -/
def get_beamdyn_out_files (hasFile : FsPath → Bool)
    (out_dir baseline_dir : FsPath) : Except Err (Option (FsPath × FsPath)) :=
  let local_file := out_dir ++ ["bd_driver.out"]
  let baseline := baseline_dir ++ ["bd_driver.out"]
  match validate_file hasFile local_file with
  | .error err => .error err
  | .ok _ =>
    match validate_file hasFile baseline with
    | .error err => .error err
    | .ok _ => .ok (some (local_file, baseline))

/-- `Executor.FUNC_MAP` (executor.py lines 128-132) applied at the
uniform three-argument call site `_func(case, out_dir, target)` of
`read_out_files` (line 438). The non-linear handlers return
`some (local, baseline)`; the linear entry `_get_linear_out_files` is a
zero-parameter function, so the three-argument call raises `TypeError`
before its body (which would return `(None, None)`) can run. -/
def func_map (hasFile : FsPath → Bool) (cat : Category) (c : String)
    (out_dir baseline_dir : FsPath) : Except Err (Option (FsPath × FsPath)) :=
  match cat with
  | .linear => .error (.typeError "_get_linear_out_files")
  | .regression => get_regression_out_files hasFile c out_dir baseline_dir
  | .beamdyn => get_beamdyn_out_files hasFile out_dir baseline_dir

/-- The loop body of `Executor.read_out_files` (executor.py lines
435-449) folded over the zipped `(case, out_dir, target)` triples,
carrying the three accumulated lists. The `.ok none` branch mirrors the
`local is None and baseline is None` continue at lines 441-442; it is
dead code, since no handler reached through the three-argument call of
`func_map` ever returns the `(None, None)` pair. -/
def readOutFold {α : Type} (env : ReadEnv α)
    (acc : List String × List α × List α) :
    List (String × FsPath × FsPath) → Except Err (List String × List α × List α)
  | [] => .ok acc
  | (c, out_dir, target) :: rest =>
    match case_map_lookup c with
    | .error err => .error err
    | .ok cat =>
      match func_map env.hasFile cat c out_dir target with
      | .error err => .error err
      | .ok none => readOutFold env acc rest
      | .ok (some (local_file, baseline)) =>
        match env.loadOutput local_file with
        | .error err => .error err
        | .ok test_data =>
          match env.loadOutput baseline with
          | .error err => .error err
          | .ok baseline_data =>
            readOutFold env
              (acc.1 ++ [c], acc.2.1 ++ [baseline_data], acc.2.2 ++ [test_data]) rest

/-- `Executor.read_out_files` (executor.py lines 417-451): returns
`(case_list, baseline_list, test_list)`. -/
def Executor.read_out_files {α : Type} (env : ReadEnv α) (e : Executor) :
    Except Err (List String × List α × List α) :=
  readOutFold env ([], [], []) (e.cases.zip (e.test_build.zip e.outputs))

/-- The default `norm_list` argument of `Executor.test_norm`
(executor.py lines 458-463). -/
def defaultNormList : List String :=
  ["max_norm", "max_norm_over_range", "l2_norm", "relative_l2_norm"]

/-- `Executor.test_norm` (executor.py lines 453-490). The loop body is
`norm_results.append(calculate_norms(baseline, test, norm_list))`, and
neither `baseline` nor `test` is bound anywhere in the function (its
parameters are `baseline_list` and `test_list`) or at module level, so
the first loop iteration raises `NameError`; an empty `case_list` skips
the loop and returns the empty list. The element type `β` of the result
is abstract because no result element is ever produced. -/
def test_norm {α β : Type} (case_list : List String)
    (baseline_list test_list : List α) (norm_list : List String) :
    Except Err (List β) :=
  match case_list, baseline_list, test_list, norm_list with
  | [], _, _, _ => .ok []
  | _ :: _, _, _, _ => .error (.nameError "baseline")

/-- A filesystem state: an association list from file path to file
content, one entry per regular file (directories exist implicitly as
proper prefixes of file paths; `os.makedirs` on such a model is a no-op
and is therefore dropped from `_check_5MW_dll_files`). -/
abbrev FS := List (FsPath × String)

/-- Content of the file at `p`, if present. -/
def lookupFile : FS → FsPath → Option String
  | [], _ => none
  | (q, c) :: fs, p => if q = p then some c else lookupFile fs p

/-- Write `c` to the file at `p`: update in place when the path exists,
append a new entry otherwise (the order of unrelated entries is
preserved, so a rewrite with identical content is the identity). -/
def setFile : FS → FsPath → String → FS
  | [], p, c => [(p, c)]
  | (q, d) :: fs, p, c => if q = p then (q, c) :: fs else (q, d) :: setFile fs p c

/-- `os.path.isfile`. -/
def isfile (fs : FS) (p : FsPath) : Bool := (lookupFile fs p).isSome

/-- `os.path.isdir`: some file lives strictly below `p`. -/
def isdir (fs : FS) (p : FsPath) : Bool :=
  fs.any (fun e => p.isPrefixOf e.1 && p ≠ e.1)

/-- The name of the immediate child of directory `d` on the way to path
`q`, if `q` lies strictly below `d`. -/
def childName (d q : FsPath) : Option String :=
  if d.isPrefixOf q then (q.drop d.length).head? else none

/-- Deduplicate a name list, keeping the last occurrence of each name
(OS directory listings have no duplicates; the choice only fixes a
deterministic order for the model's `os.listdir`). -/
def dedupNames : List String → List String
  | [] => []
  | n :: ns => if n ∈ ns then dedupNames ns else n :: dedupNames ns

/-- `os.listdir(d)`: the names of the immediate children of `d`. -/
def listdir (fs : FS) (d : FsPath) : List String :=
  dedupNames (fs.filterMap (fun e => childName d e.1))

/-- `shutil.copy2(src, dstFile)` with `dstFile` a full file path:
raises `FileNotFoundError` when the source file is missing and
`IsADirectoryError` when the source is a directory. -/
def copyFileTo (fs : FS) (src dstFile : FsPath) : Except Err FS :=
  match lookupFile fs src with
  | some c => .ok (setFile fs dstFile c)
  | none =>
    if isdir fs src then .error (.isADirectory src)
    else .error (.fileNotFound src)

/-- `shutil.copy2(src, dstDir)` / `shutil.copy(src, dstDir)` with an
existing destination directory: the file lands at `dstDir/basename`. -/
def copyIntoDir (fs : FS) (src dstDir : FsPath) : Except Err FS :=
  match src.getLast? with
  | some n => copyFileTo fs src (dstDir ++ [n])
  | none => .error (.fileNotFound src)

/-- The files below `src`, as (relative path, content) pairs. -/
def entriesUnder (fs : FS) (src : FsPath) : List (FsPath × String) :=
  fs.filterMap (fun e =>
    if src.isPrefixOf e.1 && src ≠ e.1 then some (e.1.drop src.length, e.2)
    else none)

/-- `shutil.copytree(src, dst, ignore)`: fails if `dst` already exists
or `src` is not a directory; otherwise copies every file below `src`
whose relative path has no ignored segment (`shutil`'s `ignore` callback
filters names at every directory level). -/
def copytree (ign : String → Bool) (fs : FS) (src dst : FsPath) : Except Err FS :=
  if isdir fs dst then .error (.fileExists dst)
  else if isdir fs src then
    .ok ((entriesUnder fs src).foldl
      (fun acc e => if e.1.all (fun seg => !ign seg) then setFile acc (dst ++ e.1) e.2 else acc)
      fs)
  else .error (.fileNotFound src)

/-- The environment of the materialization phase: the process working
directory (against which the bare `os.path.isfile(f)` of
`_build_test_directory` resolves) and the `pyfast.utilities`
`ignore_baseline` callback.

Modelled from the spec: `ignore_baseline` is not under src/; per §4.2 it
excludes "files belonging to baseline-only metadata" from the fixture
copy, so it is an abstract predicate on entry names. -/
structure MatEnv where
  cwd : FsPath
  ignore_baseline : String → Bool

/-- One `(input_dir, test_dir)` iteration of `Executor._build_test_directory`
(executor.py lines 299-308). When the test directory is missing the whole
input tree is copied (minus ignored names); otherwise the loop copies
`input_dir/f` into the test directory for every listing entry `f` such
that `os.path.isfile(f)` holds — a check of `f` relative to the process
working directory, faithfully modelled as `isfile fs (cwd ++ [f])`. -/
def build_test_directory_step (env : MatEnv) (fs : FS)
    (pr : FsPath × FsPath) : Except Err FS :=
  let (input_dir, test_dir) := pr
  if isdir fs test_dir then
    exceptFoldl
      (fun fs f =>
        if isfile fs (env.cwd ++ [f]) then copyIntoDir fs (input_dir ++ [f]) test_dir
        else .ok fs)
      fs (listdir fs input_dir)
  else copytree env.ignore_baseline fs input_dir test_dir

/-- `Executor._build_test_directory` (executor.py lines 299-308). -/
def Executor.build_test_directory (env : MatEnv) (e : Executor) (fs : FS) :
    Except Err FS :=
  exceptFoldl (build_test_directory_step env) fs (e.inputs.zip e.test_build)

/-- The three BeamDyn input files copied by
`_build_beamdyn_output_directories`. -/
def bdFiles : List String := ["bd_driver.inp", "bd_primary.inp", "beam_props.inp"]

/-- `Executor._build_beamdyn_output_directories` (executor.py lines
249-258): for each BeamDyn case, `shutil.copy` the three driver input
files from its input directory into its test directory (unconditionally,
overwriting). `self.case.index(case)` raises `ValueError` on a miss. -/
def Executor.build_beamdyn_output_directories (e : Executor) (fs : FS)
    (to_build : List String) : Except Err FS :=
  exceptFoldl
    (fun fs c =>
      match e.cases.findIdx? (· = c) with
      | none => .error (.valueError "list.index(x): x not in list")
      | some ix =>
        match e.inputs.get? ix, e.test_build.get? ix with
        | some in_dir, some test =>
          exceptFoldl (fun fs f => copyIntoDir fs (in_dir ++ [f]) test) fs bdFiles
        | _, _ => .error (.valueError "list index out of range")) fs to_build

/-- The DLL dependency files of `_check_5MW_dll_files`, as relative
source paths (the basename is the last segment, Python's
`f.split("/")[-1]`). -/
def disconFiles : List FsPath :=
  [["DISCON", "build", "DISCON.dll"],
   ["DISCON_ITI", "build", "DISCON_ITIBarge.dll"],
   ["DISCON_OC3", "build", "DISCON_OC3Hywind.dll"]]

/-- `Executor._check_5MW_dll_files` (executor.py lines 260-278): ensure
each DLL exists in the shared `5MW_Baseline/ServoData` target, copying it
from the module source when the target basename is missing (`os.makedirs`
of the bare target directory is a no-op on the file-level model). -/
def Executor.check_5MW_dll_files (e : Executor) (fs : FS) : Except Err FS :=
  let source := e.module ++ ["5MW_Baseline", "ServoData"]
  let target := e.build ++ ["local_results", "5MW_Baseline", "ServoData"]
  exceptFoldl
    (fun fs f =>
      let to_copy := source ++ f
      let check := target ++ [f.getLastD ""]
      if isfile fs check then .ok fs else copyIntoDir fs to_copy target)
    fs disconFiles

/-- `Executor._build_5MW_directories` (executor.py lines 280-297): copy
the whole `5MW_Baseline` tree when the target is missing; otherwise walk
the source listing (skipping `ServoData`), copy subdirectories only when
absent, and `shutil.copy2` every top-level file unconditionally. -/
def Executor.build_5MW_directories (e : Executor) (fs : FS) : Except Err FS :=
  let source := e.module ++ ["5MW_Baseline"]
  let target := e.build ++ ["local_results", "5MW_Baseline"]
  if isdir fs target then
    exceptFoldl
      (fun fs name =>
        if name = "ServoData" then .ok fs
        else
          let s := source ++ [name]
          let t := target ++ [name]
          if isdir fs s then
            if isdir fs t then .ok fs else copytree (fun _ => false) fs s t
          else copyFileTo fs s t)
      fs (listdir fs source)
  else copytree (fun _ => false) fs source target

/-- `Executor._build_test_output_directories` (executor.py lines
310-337), the materialization step run by `run()` before dispatch: the
category-level shared fixture directories (copied only when absent), then
the per-case test directories, the BeamDyn driver inputs, the shared DLL
check and the `5MW_Baseline` copy. The `_to_build_5mw` list of the source
is computed but never used, so it has no counterpart here. -/
def Executor.build_test_output_directories (env : MatEnv) (e : Executor)
    (fs : FS) : Except Err FS :=
  let linear := ["Ideal_Beam", "WP_Baseline"]
  let regression := ["AOC", "AWT27", "SWRT", "UAE_VI", "WP_Baseline"]
  match exceptMapM case_map_lookup e.cases with
  | .error err => .error err
  | .ok case_types =>
    let directories :=
      (if case_types.contains .linear then linear else []) ++
      (if case_types.contains .regression then regression else [])
    let to_build_beamdyn :=
      if case_types.contains .beamdyn then
        e.cases.filter (fun c => CASE_MAP.lookup c == some .beamdyn)
      else []
    match exceptFoldl
        (fun fs d =>
          let dir := e.build ++ ["local_results", d]
          if isdir fs dir then .ok fs
          else copytree (fun _ => false) fs (e.module ++ [d]) dir)
        fs directories with
    | .error err => .error err
    | .ok fs =>
      match e.build_test_directory env fs with
      | .error err => .error err
      | .ok fs =>
        match e.build_beamdyn_output_directories fs to_build_beamdyn with
        | .error err => .error err
        | .ok fs =>
          match e.check_5MW_dll_files fs with
          | .error err => .error err
          | .ok fs => e.build_5MW_directories fs

/-- A concrete witness environment: Linux host, 4 cpus, every executable
and directory accepted by the validation oracles. -/
def envW : Env :=
  { hostSystem := "Linux", cpuCount := 4,
    isValidExecutable := fun _ => true, isValidDirectory := fun _ => true }

/-- Concrete witness constructor arguments: one regression case, the
default `-1` jobs request. -/
def argsW : InitArgs :=
  { caseArg := .one "AOC_WSt", executable := [], source := "r",
    compiler := "gnu", system := some "Linux", tolerance := 1, plot := 0,
    plot_path := none, execution := false, verbose := false, jobs := -1 }

/-- The executor produced by `Executor.init envW argsW`. -/
def exW : Executor :=
  { cases := ["AOC_WSt"], compiler := "gnu", output_type := "linux-gnu",
    source := ["r"], build := ["r", "build"], verbose := false,
    execution := false, tolerance := 1, plot := 0, plot_path := none,
    jobs := 1, rtest := ["r", "reg_tests", "r-test"],
    module := ["r", "reg_tests", "r-test", "glue-codes", "openfast"],
    of_executable := .srcStr "r", bd_executable := .srcStr "r",
    inputs := [], outputs := [], test_build := [], warnings := [] }

deriving instance DecidableEq for Except

/-- The executable slot selected for suffix `"openfast"`: the last
supplied path ending in `"openfast"`, defaulting to the `source`
string. -/
def lastOpenfast (executable : List String) (source : String) : ExeRef :=
  match (executable.filter (fun e => strEndsWith e "openfast")).getLast? with
  | some e => .path (parsePath e)
  | none => .srcStr source

/-- The executable slot selected for suffix `"beamdyn_driver"`: the last
supplied path ending in `"beamdyn_driver"` (and not in `"openfast"`,
which the `elif` shadows), defaulting to the `source` string. -/
def lastBeamdyn (executable : List String) (source : String) : ExeRef :=
  match (executable.filter
      (fun e => !strEndsWith e "openfast" && strEndsWith e "beamdyn_driver")).getLast? with
  | some e => .path (parsePath e)
  | none => .srcStr source

/-- Constructor arguments naming a case absent from `CASE_MAP`. -/
def argsUnknown : InitArgs :=
  { argsW with caseArg := .one "No_Such_Case" }

/-- The executor produced by `Executor.init envW argsUnknown`. -/
def exUnknown : Executor := { exW with cases := ["No_Such_Case"] }

/-- Witness environment whose host resolves to `windows`. -/
def envWin : Env := { envW with hostSystem := "Windows" }

/-- Witness arguments producing the disallowed pair `windows-gnu`. -/
def argsWin : InitArgs := { argsW with system := some "Windows" }

/-- A two-case plan (one regression, one beamdyn case) with its
test-build directories, for the dispatch witness. -/
def exDispatch : Executor :=
  { exW with
    cases := ["AOC_WSt", "bd_curved_beam"]
    test_build := [["r", "build", "local_results", "AOC_WSt"],
                   ["r", "build", "local_results", "bd_curved_beam"]] }

/-- An exit-code oracle under which the beamdyn case fails (exit code
1) and the regression case succeeds. -/
def dispatchEnvW : DispatchEnv :=
  { runCase := fun _ _ _ c => if c = "AOC_WSt" then 0 else 1 }

/-- A two-case plan (regression + beamdyn) wired to its output
directories, for the read-phase theorems. -/
def exRead : Executor :=
  { exW with
    cases := ["AOC_WSt", "bd_curved_beam"]
    test_build := [["tb", "AOC_WSt"], ["tb", "bd_curved_beam"]]
    outputs := [["out", "AOC_WSt"], ["out", "bd_curved_beam"]] }

/-- A read environment in which `AOC_WSt` has both output files but the
local `bd_driver.out` of `bd_curved_beam` is missing; loading returns
the path itself as an opaque payload. -/
def readEnvC2 : ReadEnv FsPath :=
  { hasFile := fun p =>
      [["tb", "AOC_WSt", "AOC_WSt.outb"], ["out", "AOC_WSt", "AOC_WSt.outb"],
       ["out", "bd_curved_beam", "bd_driver.out"]].contains p
    loadOutput := fun p => .ok p }

/-- A three-case plan (regression, linear, beamdyn) wired to its
directories; its read aborts at the linear case. -/
def exRead10 : Executor :=
  { exW with
    cases := ["AOC_WSt", "5MW_Land_BD_Linear", "bd_curved_beam"]
    test_build := [["tb", "AOC_WSt"], ["tb", "5MW_Land_BD_Linear"],
                   ["tb", "bd_curved_beam"]]
    outputs := [["out", "AOC_WSt"], ["out", "5MW_Land_BD_Linear"],
                ["out", "bd_curved_beam"]] }

/-- A read environment in which every file exists and loading returns
the path as an opaque payload. -/
def readEnvC10 : ReadEnv FsPath :=
  { hasFile := fun _ => true, loadOutput := fun p => .ok p }

/-- The file paths present in a filesystem state. -/
def fsKeys (fs : FS) : List FsPath := fs.map (·.1)

/-- `fs'` evolves from `fs` by writes confined to paths satisfying `W`:
all other lookups are untouched and the key list only grows, by
`W`-paths. -/
def EvolvesP (W : FsPath → Prop) (fs fs' : FS) : Prop :=
  (∀ q, ¬ W q → lookupFile fs' q = lookupFile fs q) ∧
  (∃ ext, fsKeys fs' = fsKeys fs ++ ext ∧ ∀ k ∈ ext, W k)

/-- Input-fixture directory of `bd_curved_beam`
(`rtest/modules/beamdyn/bd_curved_beam`). -/
def matInp : FsPath := ["r", "reg_tests", "r-test", "modules", "beamdyn", "bd_curved_beam"]

/-- Local build directory of `bd_curved_beam`
(`build/local_results/bd_curved_beam`). -/
def matTb : FsPath := ["r", "build", "local_results", "bd_curved_beam"]

/-- The `5MW_Baseline` source directory under the module root. -/
def src5MW : FsPath := ["r", "reg_tests", "r-test", "glue-codes", "openfast", "5MW_Baseline"]

/-- The shared `5MW_Baseline` target under the build root. -/
def tgt5MW : FsPath := ["r", "build", "local_results", "5MW_Baseline"]

/-- The `ServoData` source directory. -/
def srcSD : FsPath := src5MW ++ ["ServoData"]

/-- The `ServoData` target directory. -/
def tgtSD : FsPath := tgt5MW ++ ["ServoData"]

/-- The DLL basenames checked by `_check_5MW_dll_files`. -/
def dllNames : List String := ["DISCON.dll", "DISCON_ITIBarge.dll", "DISCON_OC3Hywind.dll"]

/-- A one-case beamdyn plan (`bd_curved_beam`) with its directory
references built, used for the materialization theorems. -/
def exMat : Executor :=
  { cases := ["bd_curved_beam"], compiler := "gnu", output_type := "macos-gnu",
    source := ["r"], build := ["r", "build"], verbose := false,
    execution := true, tolerance := 1, plot := 0, plot_path := none,
    jobs := 1, rtest := ["r", "reg_tests", "r-test"],
    module := ["r", "reg_tests", "r-test", "glue-codes", "openfast"],
    of_executable := .srcStr "r", bd_executable := .srcStr "r",
    inputs := [matInp], outputs := [matInp ++ ["macos-gnu"]],
    test_build := [matTb], warnings := [] }

/-- A materialization environment with working directory `cwd` and no
baseline-metadata exclusions. -/
def envMat0 : MatEnv := { cwd := ["cwd"], ignore_baseline := fun _ => false }

/-- A starting filesystem: beamdyn fixtures and DLL sources present, one
top-level `5MW_Baseline` source file whose target copy already exists
with different (`"old"`) content. -/
def fs0 : FS :=
  [(matInp ++ ["bd_driver.inp"], "drv"),
   (matInp ++ ["bd_primary.inp"], "pri"),
   (matInp ++ ["beam_props.inp"], "props"),
   (srcSD ++ ["DISCON", "build", "DISCON.dll"], "d1"),
   (srcSD ++ ["DISCON_ITI", "build", "DISCON_ITIBarge.dll"], "d2"),
   (srcSD ++ ["DISCON_OC3", "build", "DISCON_OC3Hywind.dll"], "d3"),
   (src5MW ++ ["AeroData.dat"], "new"),
   (tgt5MW ++ ["AeroData.dat"], "old")]

/-- The filesystem produced by one materialization run from `fs0` (empty
on failure, which the counterexample theorem rules out). -/
def runMat0 : FS :=
  match Executor.build_test_output_directories envMat0 exMat fs0 with
  | .ok fs' => fs'
  | .error _ => []

/-- Whether the materialization run from `fs0` succeeded. -/
def runMat0_ok : Bool :=
  match Executor.build_test_output_directories envMat0 exMat fs0 with
  | .ok _ => true
  | .error _ => false

/-- The loop body of `_build_5MW_directories` at the exMat plan. -/
def eStep (fs : FS) (name : String) : Except Err FS :=
  if name = "ServoData" then .ok fs
  else
    if isdir fs (src5MW ++ [name]) then
      if isdir fs (tgt5MW ++ [name]) then .ok fs
      else copytree (fun _ => false) fs (src5MW ++ [name]) (tgt5MW ++ [name])
    else copyFileTo fs (src5MW ++ [name]) (tgt5MW ++ [name])

/-- Paths written by the `_build_5MW_directories` walk over `names`. -/
def W5 (names : List String) (q : FsPath) : Prop :=
  ∃ m ∈ names, tgt5MW ++ [m] <+: q

/-- `⌈4·cpu/5⌉` never exceeds the cpu count. -/
theorem ceil_cpu_80_le (cpu : Nat) : ceil_cpu_80 cpu ≤ cpu := by
  unfold ceil_cpu_80; omega

/-- `⌈4·cpu/5⌉` is positive whenever a cpu is available. -/
theorem ceil_cpu_80_pos (cpu : Nat) (h : 1 ≤ cpu) : 1 ≤ ceil_cpu_80 cpu := by
  unfold ceil_cpu_80; omega

/-- Resolution of a `-1` request: 80% of the cpus, capped by case count. -/
theorem resolve_jobs_neg_one (cpu n : Nat) :
    resolve_jobs (-1) cpu n = .ok (min (ceil_cpu_80 cpu : Int) (n : Int)) := by
  have h : ceil_cpu_80 cpu ≤ cpu := ceil_cpu_80_le cpu
  simp only [resolve_jobs]
  split_ifs <;>
    first
    | rfl
    | (simp only [Except.ok.injEq]; omega)
    | (exfalso; omega)

/-- A `0` request behaves exactly like `-1`. -/
theorem resolve_jobs_zero (cpu n : Nat) :
    resolve_jobs 0 cpu n = resolve_jobs (-1) cpu n := by
  simp [resolve_jobs]

/-- Resolution of a positive request: capped by cpu count, then by case
count. -/
theorem resolve_jobs_pos (jobs : Int) (cpu n : Nat) (h : 0 < jobs) :
    resolve_jobs jobs cpu n = .ok (min (min jobs (cpu : Int)) (n : Int)) := by
  simp only [resolve_jobs]
  split_ifs <;>
    first
    | rfl
    | (simp only [Except.ok.injEq]; omega)
    | (exfalso; omega)

/-- Resolution of a request below `-1`: a `ValueError`. -/
theorem resolve_jobs_lt_neg_one (jobs : Int) (cpu n : Nat) (h : jobs < -1) :
    resolve_jobs jobs cpu n =
      .error (.valueError "Input 'jobs' cannot be negative!") := by
  simp only [resolve_jobs]
  split_ifs <;>
    first
    | rfl
    | (simp only [Except.ok.injEq]; omega)
    | (exfalso; omega)

/-- The initial normalization `jobs if jobs != 0 else -1` of `__init__`
is absorbed by `resolve_jobs` (which starts with the same step). -/
theorem resolve_jobs_normalize (jobs : Int) (cpu n : Nat) :
    resolve_jobs (if jobs = 0 then -1 else jobs) cpu n =
      resolve_jobs jobs cpu n := by
  by_cases h : jobs = 0 <;> simp [resolve_jobs, h]

/-- A successful `_validate_inputs` stores exactly the resolved
concurrency and keeps the case list. -/
theorem validate_inputs_ok_jobs (env : Env) (e e' : Executor)
    (h : e.validate_inputs env = .ok e') :
    resolve_jobs e.jobs env.cpuCount e.cases.length = .ok e'.jobs ∧
    e'.cases = e.cases := by
  unfold Executor.validate_inputs at h
  split_ifs at h <;> (try exact Except.noConfusion h) <;>
    (cases hr : resolve_jobs e.jobs env.cpuCount e.cases.length with
     | error err => rw [hr] at h; exact Except.noConfusion h
     | ok jobs =>
       rw [hr] at h
       simp only [Except.ok.injEq] at h
       subst h
       exact ⟨rfl, rfl⟩)

/-- A successful construction stores exactly the resolved concurrency. -/
theorem init_ok_jobs (env : Env) (a : InitArgs) (e : Executor)
    (h : Executor.init env a = .ok e) :
    resolve_jobs a.jobs env.cpuCount e.cases.length = .ok e.jobs := by
  unfold Executor.init at h
  cases hs : SYSTEM_MAP.lookup (a.system.getD env.hostSystem) with
  | none => rw [hs] at h; exact absurd h (by simp)
  | some system =>
    rw [hs] at h
    obtain ⟨h1, h2⟩ := validate_inputs_ok_jobs env _ e h
    simp only at h1 h2
    rw [← h2] at h1
    rw [resolve_jobs_normalize] at h1
    exact h1

/-- Bounds of a successful concurrency resolution: positive, at most the
cpu count, at most the case count. -/
theorem resolve_jobs_bounds (jobs r : Int) (cpu n : Nat)
    (h : resolve_jobs jobs cpu n = .ok r) (hcpu : 1 ≤ cpu) (hn : 1 ≤ n) :
    1 ≤ r ∧ r ≤ (cpu : Int) ∧ r ≤ (n : Int) := by
  have hceil_le := ceil_cpu_80_le cpu
  have hceil_pos := ceil_cpu_80_pos cpu hcpu
  simp only [resolve_jobs] at h
  split_ifs at h <;>
    first
    | exact Except.noConfusion h
    | (simp only [Except.ok.injEq] at h; omega)

theorem init_envW_argsW : Executor.init envW argsW = .ok exW := by decide

/-- C1: for an Executor constructed over a non-empty case list, a
requested jobs value of -1 (or 0, treated as -1) resolves to
`ceil(0.8 × cpu_count)`, a positive request to `min(requested,
cpu_count)`, a request below -1 raises `ValueError` (in
`_validate_inputs`, hence during construction before any dispatch), and
the resolved value is capped by the number of cases; `self.jobs` of every
successfully constructed Executor is exactly the value resolved this way
from the requested `jobs`, the machine cpu count and the case-list
length. With cpu_count 10 and 3 cases, a request of -1 resolves to 3 and
a request of -2 raises. -/
theorem c1_concurrency_resolution (jobs : Int) (cpu n_cases : Nat)
    (env : Env) (a : InitArgs) (e : Executor) :
    resolve_jobs (-1) cpu n_cases =
      .ok (min (ceil_cpu_80 cpu : Int) (n_cases : Int)) ∧
    resolve_jobs 0 cpu n_cases = resolve_jobs (-1) cpu n_cases ∧
    (0 < jobs → resolve_jobs jobs cpu n_cases =
      .ok (min (min jobs (cpu : Int)) (n_cases : Int))) ∧
    (jobs < -1 → resolve_jobs jobs cpu n_cases =
      .error (.valueError "Input 'jobs' cannot be negative!")) ∧
    (Executor.init env a = .ok e →
      resolve_jobs a.jobs env.cpuCount e.cases.length = .ok e.jobs) ∧
    resolve_jobs (-1) 10 3 = .ok 3 ∧
    resolve_jobs (-2) 10 3 =
      .error (.valueError "Input 'jobs' cannot be negative!") :=
  ⟨resolve_jobs_neg_one cpu n_cases,
   resolve_jobs_zero cpu n_cases,
   resolve_jobs_pos jobs cpu n_cases,
   resolve_jobs_lt_neg_one jobs cpu n_cases,
   init_ok_jobs env a e,
   rfl, rfl⟩

/-- Witness for C1 at concrete inputs: request 5 with 4 cpus and 20
cases resolves to 4; a successful concrete construction (cpu_count 4,
one case, request -1) stores jobs 1 = min(ceil(0.8·4), 1). -/
theorem c1_concurrency_resolution_witness :
    resolve_jobs 5 4 20 = .ok (min (min 5 (4 : Int)) (20 : Int)) ∧
    resolve_jobs (-2) 7 9 =
      .error (.valueError "Input 'jobs' cannot be negative!") ∧
    resolve_jobs argsW.jobs envW.cpuCount exW.cases.length = .ok exW.jobs :=
  ⟨(c1_concurrency_resolution 5 4 20 envW argsW exW).2.2.1 (by norm_num),
   (c1_concurrency_resolution (-2) 7 9 envW argsW exW).2.2.2.1 (by norm_num),
   (c1_concurrency_resolution (-2) 7 9 envW argsW exW).2.2.2.2.1
     init_envW_argsW⟩

/-- C9: after every successful construction with a non-empty case list
and at least one cpu, the stored job count satisfies
`1 ≤ jobs ≤ cpu_count` and `jobs ≤ len(case list)`; and
`_build_directory_references` (the only state change between
construction and dispatch) leaves `self.jobs` — the size of the worker
pool every dispatch opens — unchanged. -/
theorem c9_jobs_invariant (env : Env) (a : InitArgs) (e : Executor)
    (h : Executor.init env a = .ok e) (hne : e.cases ≠ [])
    (hcpu : 1 ≤ env.cpuCount) :
    (1 ≤ e.jobs ∧ e.jobs ≤ (env.cpuCount : Int) ∧
      e.jobs ≤ (e.cases.length : Int)) ∧
    ∀ e', e.build_directory_references = .ok e' → e'.jobs = e.jobs := by
  constructor
  · have hn : 1 ≤ e.cases.length := List.length_pos.mpr hne
    exact resolve_jobs_bounds a.jobs e.jobs env.cpuCount e.cases.length
      (init_ok_jobs env a e h) hcpu hn
  · intro e' h'
    unfold Executor.build_directory_references at h'
    cases ht : exceptMapM (buildRefEntry e) e.cases with
    | error err => rw [ht] at h'; exact Except.noConfusion h'
    | ok triples =>
      rw [ht] at h'
      simp only [Except.ok.injEq] at h'
      subst h'
      rfl

/-- Witness for C9 at the concrete construction `envW`/`argsW`. -/
theorem c9_jobs_invariant_witness :
    (1 ≤ exW.jobs ∧ exW.jobs ≤ (envW.cpuCount : Int) ∧
      exW.jobs ≤ (exW.cases.length : Int)) ∧
    ∀ e', exW.build_directory_references = .ok e' → e'.jobs = exW.jobs :=
  c9_jobs_invariant envW argsW exW init_envW_argsW (by decide) (by decide)

/-- C4 (code bug in `test_norm`, executor.py lines 486-488): the loop
body is `norm_results.append(calculate_norms(baseline, test, norm_list))`
but neither `baseline` nor `test` is bound anywhere, so for every
non-empty `case_list` the call raises `NameError` instead of computing
the per-case norms from `baseline_list`/`test_list`; evaluated here at
the failing input `case_list = ["AOC_WSt"]` with matching one-element
baseline and test lists. -/
theorem c4_test_norm_name_error :
    test_norm (α := Nat) (β := Nat) ["AOC_WSt"] [0] [1] defaultNormList =
      .error (.nameError "baseline") := rfl

/-- `getLast?` of a cons in terms of the tail's `getLast?`. -/
theorem getLast?_cons_eq {α : Type} (x : α) (l : List α) :
    (x :: l).getLast? = some ((l.getLast?).getD x) := by
  induction l generalizing x with
  | nil => rfl
  | cons y ys ih => simp [List.getLast?_cons_cons, ih]

/-- C8 counterexample: a supplied path ending in neither recognized
suffix (`"build/bin/mysim"`) is ignored entirely: the general-executable
slot keeps its default value (the raw `source` string `"src"`) instead of
selecting the supplied path, contrary to the claim that "any other
supplied path is selected as the general executable". -/
theorem c8_counterexample :
    selectExecutables ["build/bin/mysim"] "src" =
      (.srcStr "src", .srcStr "src") ∧
    ExeRef.srcStr "src" ≠ ExeRef.path (parsePath "build/bin/mysim") :=
  ⟨rfl, by decide⟩

/-- C8 amended: for every supplied executable-path list, the path last
in the list ending in `"beamdyn_driver"` is selected as the beamdyn
driver and the path last in the list ending in `"openfast"` as the
general executable; a path with neither suffix is ignored, leaving the
corresponding slot at its default, the raw source string. -/
theorem c8_executable_selection (executable : List String) (source : String) :
    selectExecutables executable source =
      (lastOpenfast executable source, lastBeamdyn executable source) := by
  unfold selectExecutables lastOpenfast lastBeamdyn
  suffices h : ∀ acc : ExeRef × ExeRef,
      executable.foldl
        (fun acc exe =>
          if strEndsWith exe "openfast" then (.path (parsePath exe), acc.2)
          else if strEndsWith exe "beamdyn_driver" then
            (acc.1, .path (parsePath exe))
          else acc)
        acc =
      ((match (executable.filter (fun e => strEndsWith e "openfast")).getLast? with
        | some e => .path (parsePath e)
        | none => acc.1),
       (match (executable.filter
           (fun e => !strEndsWith e "openfast" && strEndsWith e "beamdyn_driver")).getLast? with
        | some e => .path (parsePath e)
        | none => acc.2)) by
    exact h (.srcStr source, .srcStr source)
  induction executable with
  | nil => intro acc; rfl
  | cons x xs ih =>
    intro acc
    by_cases h1 : strEndsWith x "openfast" <;>
      by_cases h2 : strEndsWith x "beamdyn_driver" <;>
        simp only [List.foldl_cons, List.filter_cons, h1, h2, Bool.not_true,
          Bool.not_false, Bool.false_and, Bool.true_and, Bool.and_self,
          if_true, if_false, ite_true, ite_false, ih] <;>
        cases hl : (xs.filter (fun e => strEndsWith e "openfast")).getLast? <;>
          cases hb : (xs.filter
              (fun e => !strEndsWith e "openfast" && strEndsWith e "beamdyn_driver")).getLast? <;>
            simp [getLast?_cons_eq, hl, hb]

/-- C5 counterexample: constructing a plan with the unregistered case
name `"No_Such_Case"` raises nothing — `__init__` validates output type,
executables, build directory, plot flag and jobs but never consults
`CASE_MAP`, so construction succeeds; the unknown-case `KeyError` only
surfaces at the first catalog lookup, in `_build_directory_references`
(called from `run()`). -/
theorem c5_counterexample :
    Executor.init envW argsUnknown = .ok exUnknown ∧
    exUnknown.build_directory_references =
      .error (.keyError "No_Such_Case") :=
  ⟨by decide, by decide⟩

/-- If some case name of the plan is unregistered, the directory-
reference pass fails with a `KeyError` naming an unregistered case. -/
theorem mapM_buildRefEntry_unknown (e : Executor) (l : List String)
    (c : String) (hc : c ∈ l) (hu : CASE_MAP.lookup c = none) :
    ∃ d, exceptMapM (buildRefEntry e) l = .error (.keyError d) ∧
      CASE_MAP.lookup d = none := by
  induction l with
  | nil => cases hc
  | cons x xs ih =>
    cases hx : CASE_MAP.lookup x with
    | none =>
      refine ⟨x, ?_, hx⟩
      simp [exceptMapM, buildRefEntry, case_map_lookup, hx]
    | some cat =>
      have hcx : c ∈ xs := by
        cases List.mem_cons.mp hc with
        | inl h => subst h; rw [hx] at hu; exact Option.noConfusion hu
        | inr h => exact h
      obtain ⟨d, hd, hdu⟩ := ih hcx
      refine ⟨d, ?_, hdu⟩
      simp [exceptMapM, buildRefEntry, case_map_lookup, hx, hd]

/-- C5 amended: an unknown case name does not raise at construction
(the accompanying counterexample); instead, for every successfully
constructed Executor whose case list contains an unregistered name, the
catalog `KeyError` surfaces at `_build_directory_references` — the first
step of `run()`, before any filesystem mutation or execution. -/
theorem c5_unknown_case_deferred (env : Env) (a : InitArgs) (e : Executor)
    (c : String) (hinit : Executor.init env a = .ok e) (hc : c ∈ e.cases)
    (hu : CASE_MAP.lookup c = none) :
    ∃ d, e.build_directory_references = .error (.keyError d) ∧
      CASE_MAP.lookup d = none := by
  obtain ⟨d, hd, hdu⟩ := mapM_buildRefEntry_unknown e e.cases c hc hu
  exact ⟨d, by unfold Executor.build_directory_references; rw [hd], hdu⟩

/-- Witness for the amended C5 at the concrete unknown-case plan. -/
theorem c5_unknown_case_deferred_witness :
    ∃ d, exUnknown.build_directory_references = .error (.keyError d) ∧
      CASE_MAP.lookup d = none :=
  c5_unknown_case_deferred envW argsUnknown exUnknown "No_Such_Case"
    (by decide) (by decide) (by decide)

/-- When every resolution guard is satisfiable (`jobs ≥ -1`), the
concurrency resolution succeeds. -/
theorem resolve_jobs_isOk (jobs : Int) (cpu n : Nat) (h : -1 ≤ jobs) :
    ∃ r, resolve_jobs jobs cpu n = .ok r := by
  simp only [resolve_jobs]
  split_ifs <;> first | (exfalso; omega) | exact ⟨_, rfl⟩

/-- `_validate_inputs` on a state whose output type is not among the
four allowed ones (and whose other inputs pass validation): success,
output type forced to `"macos-gnu"`, fallback warning appended. -/
theorem validate_inputs_fallback (env : Env) (e : Executor)
    (hbad : (["macos-gnu", "linux-intel", "linux-gnu", "windows-intel"]).contains
      e.output_type = false)
    (hexe : ∀ p, env.isValidExecutable p = true)
    (hdir : ∀ p, env.isValidDirectory p = true)
    (hplot : (([0, 1, 2] : List Int)).contains e.plot = true)
    (hjobs : -1 ≤ e.jobs) :
    ∃ e', e.validate_inputs env = .ok e' ∧ e'.output_type = "macos-gnu" ∧
      e'.warnings = e.warnings ++ ["Defaulting to macos-gnu for output type"] := by
  obtain ⟨r, hr⟩ := resolve_jobs_isOk e.jobs env.cpuCount e.cases.length hjobs
  unfold Executor.validate_inputs
  simp only [hexe, hdir, hplot, hbad, hr, Bool.not_true, Bool.and_false,
    Bool.and_true, if_false, ite_false, ite_true, Bool.false_eq_true]
  exact ⟨_, rfl, rfl, rfl⟩

/-- C6: for every system/compiler pair whose joined identifier
`"<system>-<compiler>"` is not one of `macos-gnu`, `linux-intel`,
`linux-gnu`, `windows-intel` (for instance `windows-gnu`), construction
with otherwise-valid inputs succeeds: the output type falls back to
`"macos-gnu"`, the fallback warning is printed, and nothing is raised. -/
theorem c6_output_type_fallback (env : Env) (a : InitArgs) (sys : String)
    (hsys : SYSTEM_MAP.lookup (a.system.getD env.hostSystem) = some sys)
    (hbad : (["macos-gnu", "linux-intel", "linux-gnu", "windows-intel"]).contains
      (sys ++ "-" ++ strToLower a.compiler) = false)
    (hexe : ∀ p, env.isValidExecutable p = true)
    (hdir : ∀ p, env.isValidDirectory p = true)
    (hplot : (([0, 1, 2] : List Int)).contains a.plot = true)
    (hjobs : -1 ≤ a.jobs) :
    ∃ e, Executor.init env a = .ok e ∧ e.output_type = "macos-gnu" ∧
      e.warnings = ["Defaulting to macos-gnu for output type"] := by
  unfold Executor.init
  rw [hsys]
  have hjobs' : -1 ≤ (if a.jobs = 0 then (-1 : Int) else a.jobs) := by
    split <;> omega
  obtain ⟨e', he', hout, hwarn⟩ :=
    validate_inputs_fallback env
      { cases :=
          match a.caseArg with
          | .all => CASE_MAP.map (·.1)
          | .one c => [c]
          | .many cs => cs
        compiler := a.compiler
        output_type := sys ++ "-" ++ strToLower a.compiler
        source := parsePath a.source
        build := parsePath a.source ++ ["build"]
        verbose := a.verbose
        execution := a.execution
        tolerance := a.tolerance
        plot := a.plot
        plot_path := a.plot_path
        jobs := if a.jobs = 0 then -1 else a.jobs
        rtest := parsePath a.source ++ ["reg_tests", "r-test"]
        module := parsePath a.source ++ ["reg_tests", "r-test", "glue-codes", "openfast"]
        of_executable := (selectExecutables a.executable a.source).1
        bd_executable := (selectExecutables a.executable a.source).2
        inputs := []
        outputs := []
        test_build := []
        warnings := [] }
      hbad hexe hdir hplot hjobs'
  exact ⟨e', he', hout, hwarn⟩

/-- Witness for C6 at the concrete pair `windows-gnu`. -/
theorem c6_output_type_fallback_witness :
    ∃ e, Executor.init envWin argsWin = .ok e ∧ e.output_type = "macos-gnu" ∧
      e.warnings = ["Defaulting to macos-gnu for output type"] :=
  c6_output_type_fallback envWin argsWin "windows" (by decide) (by decide)
    (fun _ => rfl) (fun _ => rfl) (by decide) (by decide)

/-- On a registered case, `_run_single_case` never raises: it returns
the oracle's exit code together with the ordinal and the case name,
whatever the exit code is. -/
theorem run_single_case_shape (e : Executor) (env : DispatchEnv)
    (ix c : String) (tb : FsPath) (hreg : (CASE_MAP.lookup c).isSome) :
    ∃ code, e.run_single_case env (ix, c, tb) = .ok (code, ix, c) := by
  cases hc : CASE_MAP.lookup c with
  | none => rw [hc] at hreg; exact Bool.noConfusion hreg
  | some cat =>
    refine ⟨env.runCase (if cat = .beamdyn then e.bd_executable else e.of_executable)
      (if cat = .beamdyn then tb ++ ["bd_driver.inp"] else tb ++ [c ++ ".fst"])
      ix c, ?_⟩
    simp only [Executor.run_single_case, case_map_lookup, hc]
    by_cases hb : cat = Category.beamdyn <;> simp [hb]

/-- The dispatch map over any list of `(ordinal, case, build-dir)`
triples of registered cases succeeds with one result per triple, the
i-th result carrying the i-th ordinal and case name. -/
theorem dispatch_mapM_shape (e : Executor) (env : DispatchEnv)
    (l : List (String × String × FsPath))
    (hreg : ∀ x ∈ l, (CASE_MAP.lookup x.2.1).isSome) :
    ∃ res, exceptMapM (e.run_single_case env) l = .ok res ∧
      res.length = l.length ∧
      ∀ i, (res.get? i).map (fun r => r.2) =
        (l.get? i).map (fun x => (x.1, x.2.1)) := by
  induction l with
  | nil => exact ⟨[], rfl, rfl, fun i => by cases i <;> rfl⟩
  | cons x xs ih =>
    obtain ⟨code, hx⟩ :=
      run_single_case_shape e env x.1 x.2.1 x.2.2 (hreg x (List.mem_cons_self x xs))
    obtain ⟨res, hres, hlen, hget⟩ := ih (fun y hy => hreg y (List.mem_cons_of_mem x hy))
    refine ⟨(code, x.1, x.2.1) :: res, ?_, by simpa using hlen, ?_⟩
    · have hx' : e.run_single_case env x = .ok (code, x.1, x.2.1) := by
        cases x with
        | mk a b => cases b with
          | mk b1 b2 => exact hx
      simp [exceptMapM, hx', hres]
    · intro i
      cases i with
      | zero => rfl
      | succ j => simpa using hget j

/-- `get?` of a `zip` in terms of the component lists. -/
theorem zip_get? {α β : Type} (a : List α) (b : List β) (i : Nat) :
    (a.zip b).get? i =
      (a.get? i).bind (fun x => (b.get? i).map (fun y => (x, y))) := by
  induction a generalizing b i with
  | nil => cases b <;> cases i <;> rfl
  | cons x xs ih =>
    cases b with
    | nil => cases i <;> simp
    | cons y ys =>
      cases i with
      | zero => rfl
      | succ j => simpa using ih ys j

/-- C3: for every plan whose cases are all registered and whose
test-build list matches the case list in length, the dispatch phase
returns — for every exit-code oracle, i.e. regardless of how many cases
fail — exactly one execution result per case, the i-th result carrying
the ordinal string `"(i+1)/n"` and the i-th case name; a non-zero exit
code is only recorded in the result and counted against the success
tally of the console summary, never raised. -/
theorem c3_batch_completeness (e : Executor) (env : DispatchEnv)
    (hreg : ∀ c ∈ e.cases, (CASE_MAP.lookup c).isSome)
    (hlen : e.test_build.length = e.cases.length) :
    ∃ res, e.run_openfast_cases env = .ok res ∧
      res.length = e.cases.length ∧
      (∀ i, (res.get? i).map (fun r => r.2) =
        (e.cases.get? i).map
          (fun c => (mkOrdinal (i + 1) e.cases.length, c))) ∧
      dispatchTally res =
        ((res.filter (fun r => r.1 = 0)).length, e.cases.length) := by
  have hreg' : ∀ x ∈ ((List.range e.cases.length).map
      (fun j => mkOrdinal (j + 1) e.cases.length)).zip
        (e.cases.zip e.test_build), (CASE_MAP.lookup x.2.1).isSome := by
    intro x hx
    have hx2 := (List.of_mem_zip hx).2
    exact hreg x.2.1 (List.of_mem_zip hx2).1
  obtain ⟨res, hres, hrlen, hget⟩ := dispatch_mapM_shape e env _ hreg'
  have hzlen : (((List.range e.cases.length).map
      (fun j => mkOrdinal (j + 1) e.cases.length)).zip
        (e.cases.zip e.test_build)).length = e.cases.length := by
    simp [List.length_zip, hlen]
  refine ⟨res, hres, by rw [hrlen, hzlen], ?_, ?_⟩
  · intro i
    rw [hget i]
    simp only [zip_get?]
    cases hci : e.cases.get? i with
    | none =>
      have hn : e.cases.length ≤ i := List.get?_eq_none.mp hci
      have hix : ((List.range e.cases.length).map
          (fun j => mkOrdinal (j + 1) e.cases.length)).get? i = none := by
        apply List.get?_eq_none.mpr; simpa using hn
      simp only [hix, hci]; rfl
    | some c =>
      have hi : i < e.cases.length := by
        by_contra hgt
        rw [List.get?_eq_none.mpr (by omega)] at hci
        exact Option.noConfusion hci
      obtain ⟨t, ht⟩ : ∃ t, e.test_build.get? i = some t := by
        cases htb' : e.test_build.get? i with
        | none =>
          have := List.get?_eq_none.mp htb'
          omega
        | some t => exact ⟨t, rfl⟩
      have hix : ((List.range e.cases.length).map
          (fun j => mkOrdinal (j + 1) e.cases.length)).get? i =
            some (mkOrdinal (i + 1) e.cases.length) := by
        rw [List.get?_map, List.get?_range hi]
        rfl
      simp only [hix, hci, ht]; rfl
  · simp [dispatchTally, hrlen, hzlen]

/-- Witness for C3: the two-case plan with one failing case still
yields two results, correlated in order. -/
theorem c3_batch_completeness_witness :
    ∃ res, exDispatch.run_openfast_cases dispatchEnvW = .ok res ∧
      res.length = exDispatch.cases.length ∧
      (∀ i, (res.get? i).map (fun r => r.2) =
        (exDispatch.cases.get? i).map
          (fun c => (mkOrdinal (i + 1) exDispatch.cases.length, c))) ∧
      dispatchTally res =
        ((res.filter (fun r => r.1 = 0)).length, exDispatch.cases.length) :=
  c3_batch_completeness exDispatch dispatchEnvW (by decide) (by decide)

/-- The regression handler never yields the `(None, None)` pair. -/
theorem get_regression_out_files_not_none (hasFile : FsPath → Bool)
    (c : String) (od bd : FsPath) (p : Option (FsPath × FsPath))
    (h : get_regression_out_files hasFile c od bd = .ok p) : p.isSome := by
  simp only [get_regression_out_files, validate_file] at h
  split_ifs at h <;> first
    | exact Except.noConfusion h
    | (simp only [Except.ok.injEq] at h; subst h; rfl)

/-- The beamdyn handler never yields the `(None, None)` pair. -/
theorem get_beamdyn_out_files_not_none (hasFile : FsPath → Bool)
    (od bd : FsPath) (p : Option (FsPath × FsPath))
    (h : get_beamdyn_out_files hasFile od bd = .ok p) : p.isSome := by
  simp only [get_beamdyn_out_files, validate_file] at h
  split_ifs at h <;> first
    | exact Except.noConfusion h
    | (simp only [Except.ok.injEq] at h; subst h; rfl)

/-- Shape of a successful read fold: it appends one entry per triple to
each of the three accumulated lists — the case names in input order, one
baseline and one test payload each — and no traversed case is of the
linear category (a linear case would have raised `TypeError` at the
handler call). -/
theorem readOutFold_shape {α : Type} (env : ReadEnv α)
    (l : List (String × FsPath × FsPath))
    (acc out : List String × List α × List α)
    (h : readOutFold env acc l = .ok out) :
    ∃ add2 add3,
      out = (acc.1 ++ l.map (·.1), acc.2.1 ++ add2, acc.2.2 ++ add3) ∧
      (l.map (·.1)).length = add2.length ∧ add2.length = add3.length ∧
      ∀ x ∈ l, CASE_MAP.lookup x.1 ≠ some Category.linear := by
  induction l generalizing acc with
  | nil =>
    simp only [readOutFold, Except.ok.injEq] at h
    exact ⟨[], [], by simp [← h], rfl, rfl, by intro x hx; cases hx⟩
  | cons x xs ih =>
    obtain ⟨c, od, tg⟩ := x
    unfold readOutFold at h
    cases hc : CASE_MAP.lookup c with
    | none =>
      simp only [case_map_lookup, hc] at h
      exact Except.noConfusion h
    | some cat =>
      simp only [case_map_lookup, hc] at h
      cases hf : func_map env.hasFile cat c od tg with
      | error err => simp only [hf] at h; exact Except.noConfusion h
      | ok pair =>
        simp only [hf] at h
        have hnl : cat ≠ Category.linear := by
          intro hlin
          subst hlin
          simp only [func_map] at hf
          exact Except.noConfusion hf
        cases pair with
        | none =>
          exfalso
          cases cat with
          | linear => exact hnl rfl
          | regression =>
            have := get_regression_out_files_not_none env.hasFile c od tg none hf
            exact Bool.noConfusion this
          | beamdyn =>
            have := get_beamdyn_out_files_not_none env.hasFile od tg none hf
            exact Bool.noConfusion this
        | some pr =>
          obtain ⟨lf, bl⟩ := pr
          cases hl : env.loadOutput lf with
          | error err => simp only [hl] at h; exact Except.noConfusion h
          | ok td =>
            simp only [hl] at h
            cases hb : env.loadOutput bl with
            | error err => simp only [hb] at h; exact Except.noConfusion h
            | ok bd =>
              simp only [hb] at h
              obtain ⟨a2, a3, hout, h12, h23, hlin⟩ := ih _ h
              refine ⟨bd :: a2, td :: a3, ?_, by simpa using h12,
                by simpa using h23, ?_⟩
              · simpa [List.append_assoc] using hout
              · intro y hy
                rcases List.mem_cons.mp hy with hy | hy
                · subst hy
                  intro hEq
                  exact hnl (by rw [hc] at hEq; injection hEq)
                · exact hlin y hy

/-- C10 counterexample: a plan containing the linear case
`5MW_Land_BD_Linear` — with every output file present and every load
succeeding — does not return three lists at all: the uniform
three-argument handler call `_func(case, out_dir, target)` reaches the
zero-parameter `_get_linear_out_files` and raises `TypeError`, aborting
the whole read; the linear case is not silently skipped as the claim
says. -/
theorem c10_counterexample :
    exRead10.read_out_files readEnvC10 =
      .error (.typeError "_get_linear_out_files") := by
  decide

/-- C10 amended: whenever `read_out_files` returns at all, the three
returned lists (case names, baseline payloads, test payloads) have equal
length and the returned case list is the whole zipped case sequence in
input order — and therefore contains no linear case: a linear case never
contributes a skipped-but-returned batch, it raises `TypeError` at the
handler call and nothing is returned. -/
theorem c10_read_out_files_shape {α : Type} (env : ReadEnv α) (e : Executor)
    (cl : List String) (bl tl : List α)
    (h : e.read_out_files env = .ok (cl, bl, tl)) :
    cl.length = bl.length ∧ bl.length = tl.length ∧
    cl = (e.cases.zip (e.test_build.zip e.outputs)).map (·.1) ∧
    ∀ x ∈ e.cases.zip (e.test_build.zip e.outputs),
      CASE_MAP.lookup x.1 ≠ some Category.linear := by
  obtain ⟨a2, a3, hout, h12, h23, hlin⟩ :=
    readOutFold_shape env _ ([], [], []) (cl, bl, tl) h
  simp only [List.nil_append, Prod.mk.injEq] at hout
  obtain ⟨h1, h2, h3⟩ := hout
  subst h1; subst h2; subst h3
  exact ⟨h12, h23, rfl, hlin⟩

/-- C2 counterexample: with `bd_curved_beam`'s local output file
missing, `read_out_files` raises `FileNotFoundError` for the whole
batch — no case is marked skipped, and the data of the healthy
`AOC_WSt` case is discarded with the rest of the run, contrary to the
claim that a missing output file is never fatal to the whole run. -/
theorem c2_counterexample :
    exRead.read_out_files readEnvC2 =
      .error (.fileNotFound ["tb", "bd_curved_beam", "bd_driver.out"]) := by
  decide

/-- If `hasFile` denies one of the two output files of a registered
non-linear case, the category handler raises `FileNotFoundError`. -/
theorem func_map_missing (hasFile : FsPath → Bool) (cat : Category)
    (c : String) (od tg : FsPath)
    (hmiss :
      (cat = .regression ∧ (hasFile (od ++ [c ++ ".outb"]) = false ∨
        hasFile (tg ++ [c ++ ".outb"]) = false)) ∨
      (cat = .beamdyn ∧ (hasFile (od ++ ["bd_driver.out"]) = false ∨
        hasFile (tg ++ ["bd_driver.out"]) = false))) :
    ∃ p, func_map hasFile cat c od tg = .error (.fileNotFound p) ∧
      hasFile p = false := by
  rcases hmiss with ⟨hcat, hm⟩ | ⟨hcat, hm⟩ <;> subst hcat
  · simp only [func_map, get_regression_out_files, validate_file]
    rcases hm with hm | hm
    · rw [hm]; exact ⟨_, rfl, hm⟩
    · cases hl : hasFile (od ++ [c ++ ".outb"]) <;> rw [hm] <;> simp [hl, hm]
  · simp only [func_map, get_beamdyn_out_files, validate_file]
    rcases hm with hm | hm
    · rw [hm]; exact ⟨_, rfl, hm⟩
    · cases hl : hasFile (od ++ ["bd_driver.out"]) <;> rw [hm] <;> simp [hl, hm]

/-- C2 amended: whenever the zipped triples contain a registered
non-linear case one of whose output files is missing, the whole read
fold raises — the batch never proceeds past a missing output file and no
skip verdict is recorded. -/
theorem readOutFold_missing_fatal {α : Type} (env : ReadEnv α)
    (l : List (String × FsPath × FsPath)) (acc : List String × List α × List α)
    (c : String) (od tg : FsPath) (hmem : (c, od, tg) ∈ l)
    (hmiss :
      (CASE_MAP.lookup c = some .regression ∧
        (env.hasFile (od ++ [c ++ ".outb"]) = false ∨
         env.hasFile (tg ++ [c ++ ".outb"]) = false)) ∨
      (CASE_MAP.lookup c = some .beamdyn ∧
        (env.hasFile (od ++ ["bd_driver.out"]) = false ∨
         env.hasFile (tg ++ ["bd_driver.out"]) = false))) :
    ∃ err, readOutFold env acc l = .error err := by
  revert hmem
  induction l generalizing acc with
  | nil => intro hmem; cases hmem
  | cons x xs ih =>
    intro hmem
    obtain ⟨cx, odx, tgx⟩ := x
    unfold readOutFold
    rcases List.mem_cons.mp hmem with hx | hx
    · injection hx with h1 h2
      injection h2 with h2 h3
      subst h1; subst h2; subst h3
      rcases hmiss with ⟨hc, hm⟩ | ⟨hc, hm⟩
      · obtain ⟨p, hp, _⟩ :=
          func_map_missing env.hasFile .regression c od tg (Or.inl ⟨rfl, hm⟩)
        refine ⟨.fileNotFound p, ?_⟩
        simp only [case_map_lookup, hc, hp]
      · obtain ⟨p, hp, _⟩ :=
          func_map_missing env.hasFile .beamdyn c od tg (Or.inr ⟨rfl, hm⟩)
        refine ⟨.fileNotFound p, ?_⟩
        simp only [case_map_lookup, hc, hp]
    · cases hcx : case_map_lookup cx with
      | error err => exact ⟨err, by simp only [hcx]⟩
      | ok cat =>
        cases hfx : func_map env.hasFile cat cx odx tgx with
        | error err => exact ⟨err, by simp only [hcx, hfx]⟩
        | ok pair =>
          cases pair with
          | none =>
            simp only [hcx, hfx]
            exact ih acc hx
          | some pr =>
            obtain ⟨lf, bl⟩ := pr
            cases hl : env.loadOutput lf with
            | error err => exact ⟨err, by simp only [hcx, hfx, hl]⟩
            | ok td =>
              cases hb : env.loadOutput bl with
              | error err => exact ⟨err, by simp only [hcx, hfx, hl, hb]⟩
              | ok bd =>
                simp only [hcx, hfx, hl, hb]
                exact ih _ hx

/-- C2 amended, at the `read_out_files` level: when the local or
baseline output file of any registered non-linear case of the plan is
missing, the whole read raises `FileNotFoundError` — the case is not
marked skipped and the rest of the batch does not proceed to
comparison. No category is handled recoverably: even a linear case
raises (`TypeError`) rather than being marked skipped. -/
theorem c2_missing_output_fatal {α : Type} (env : ReadEnv α) (e : Executor)
    (c : String) (od tg : FsPath)
    (hmem : (c, od, tg) ∈ e.cases.zip (e.test_build.zip e.outputs))
    (hmiss :
      (CASE_MAP.lookup c = some .regression ∧
        (env.hasFile (od ++ [c ++ ".outb"]) = false ∨
         env.hasFile (tg ++ [c ++ ".outb"]) = false)) ∨
      (CASE_MAP.lookup c = some .beamdyn ∧
        (env.hasFile (od ++ ["bd_driver.out"]) = false ∨
         env.hasFile (tg ++ ["bd_driver.out"]) = false))) :
    ∃ err, e.read_out_files env = .error err :=
  readOutFold_missing_fatal env _ ([], [], []) c od tg hmem hmiss

/-- Witness for the amended C2 at the concrete two-case plan with the
missing beamdyn output. -/
theorem c2_missing_output_fatal_witness :
    ∃ err, exRead.read_out_files readEnvC2 = .error err :=
  c2_missing_output_fatal readEnvC2 exRead "bd_curved_beam"
    ["tb", "bd_curved_beam"] ["out", "bd_curved_beam"]
    (by decide) (Or.inr ⟨by decide, Or.inl (by decide)⟩)

/-- Witness for the amended C10 at the two-case regression + beamdyn
plan with every file present: the read returns and the three equal-length
lists cover the whole (linear-free) case sequence. -/
theorem c10_read_out_files_shape_witness :
    (["AOC_WSt", "bd_curved_beam"] : List String).length =
      ([["out", "AOC_WSt", "AOC_WSt.outb"],
        ["out", "bd_curved_beam", "bd_driver.out"]] : List FsPath).length ∧
    ([["out", "AOC_WSt", "AOC_WSt.outb"],
      ["out", "bd_curved_beam", "bd_driver.out"]] : List FsPath).length =
      ([["tb", "AOC_WSt", "AOC_WSt.outb"],
        ["tb", "bd_curved_beam", "bd_driver.out"]] : List FsPath).length ∧
    ["AOC_WSt", "bd_curved_beam"] =
      (exRead.cases.zip (exRead.test_build.zip exRead.outputs)).map (·.1) ∧
    ∀ x ∈ exRead.cases.zip (exRead.test_build.zip exRead.outputs),
      CASE_MAP.lookup x.1 ≠ some Category.linear :=
  c10_read_out_files_shape readEnvC10 exRead
    ["AOC_WSt", "bd_curved_beam"]
    [["out", "AOC_WSt", "AOC_WSt.outb"],
     ["out", "bd_curved_beam", "bd_driver.out"]]
    [["tb", "AOC_WSt", "AOC_WSt.outb"],
     ["tb", "bd_curved_beam", "bd_driver.out"]]
    (by decide)

/-- Reading back a fresh write. -/
theorem lookupFile_setFile_self (fs : FS) (p : FsPath) (c : String) :
    lookupFile (setFile fs p c) p = some c := by
  induction fs with
  | nil => simp [setFile, lookupFile]
  | cons e fs ih =>
    obtain ⟨k, d⟩ := e
    by_cases h : k = p <;> simp [setFile, lookupFile, h, ih]

/-- A write does not affect other paths. -/
theorem lookupFile_setFile_ne (fs : FS) (p q : FsPath) (c : String)
    (h : q ≠ p) : lookupFile (setFile fs p c) q = lookupFile fs q := by
  have h' : ¬(p = q) := fun hc => h hc.symm
  induction fs with
  | nil => simp [setFile, lookupFile, h']
  | cons e fs ih =>
    obtain ⟨k, d⟩ := e
    by_cases hk : k = p
    · subst hk
      simp [setFile, lookupFile, h']
    · by_cases hq : k = q <;> simp [setFile, lookupFile, hk, hq, h, ih]

/-- Rewriting a file with the content it already has changes nothing. -/
theorem setFile_id (fs : FS) (p : FsPath) (c : String)
    (h : lookupFile fs p = some c) : setFile fs p c = fs := by
  induction fs with
  | nil => simp [lookupFile] at h
  | cons e fs ih =>
    obtain ⟨k, d⟩ := e
    by_cases hk : k = p
    · subst hk
      have hdc : d = c := by simpa [lookupFile] using h
      subst hdc
      simp [setFile]
    · simp only [lookupFile, if_neg hk] at h
      simp [setFile, hk, ih h]

/-- Updating an existing path keeps the key list. -/
theorem fsKeys_setFile_mem (fs : FS) (p : FsPath) (c : String)
    (h : (lookupFile fs p).isSome) : fsKeys (setFile fs p c) = fsKeys fs := by
  induction fs with
  | nil => simp [lookupFile] at h
  | cons e fs ih =>
    obtain ⟨k, d⟩ := e
    by_cases hk : k = p
    · simp [setFile, fsKeys, hk]
    · simp only [lookupFile, if_neg hk] at h
      simp only [setFile, if_neg hk, fsKeys, List.map_cons, List.cons.injEq]
      exact ⟨trivial, by simpa [fsKeys] using ih h⟩

/-- Writing a new path appends it to the key list. -/
theorem fsKeys_setFile_new (fs : FS) (p : FsPath) (c : String)
    (h : lookupFile fs p = none) : fsKeys (setFile fs p c) = fsKeys fs ++ [p] := by
  induction fs with
  | nil => simp [setFile, fsKeys]
  | cons e fs ih =>
    obtain ⟨k, d⟩ := e
    by_cases hk : k = p
    · subst hk; simp [lookupFile] at h
    · simp only [lookupFile, if_neg hk] at h
      simp only [setFile, if_neg hk, fsKeys, List.map_cons, List.cons_append,
        List.cons.injEq]
      exact ⟨trivial, by simpa [fsKeys] using ih h⟩

/-- A path has content exactly when it is a key. -/
theorem lookupFile_isSome_iff_mem (fs : FS) (p : FsPath) :
    (lookupFile fs p).isSome ↔ p ∈ fsKeys fs := by
  induction fs with
  | nil => simp [lookupFile, fsKeys]
  | cons e fs ih =>
    obtain ⟨k, d⟩ := e
    by_cases hk : k = p
    · simp [lookupFile, fsKeys, hk]
    · simp only [lookupFile, if_neg hk, fsKeys, List.map_cons, List.mem_cons, ih]
      constructor
      · intro hm; exact Or.inr hm
      · rintro (hm | hm)
        · exact absurd hm.symm hk
        · exact hm

/-- `isdir` through the key list. -/
theorem isdir_eq_keys (fs : FS) (p : FsPath) :
    isdir fs p = (fsKeys fs).any (fun k => p.isPrefixOf k && p ≠ k) := by
  induction fs with
  | nil => rfl
  | cons e fs ih =>
    simp only [isdir, fsKeys, List.any_cons, List.map_cons] at ih ⊢
    rw [ih]

/-- `listdir` through the key list. -/
theorem listdir_eq_keys (fs : FS) (d : FsPath) :
    listdir fs d = dedupNames ((fsKeys fs).filterMap (childName d)) := by
  have h : fs.filterMap (fun e => childName d e.1) =
      (fsKeys fs).filterMap (childName d) := by
    induction fs with
    | nil => rfl
    | cons e fs ih =>
      cases hcn : childName d e.1 <;>
        simp [List.filterMap_cons, fsKeys, hcn, ih]
  rw [listdir, h]

theorem evolvesP_refl (W : FsPath → Prop) (fs : FS) : EvolvesP W fs fs :=
  ⟨fun _ _ => rfl, [], by simp, fun k hk => absurd hk (List.not_mem_nil k)⟩

theorem evolvesP_trans {W : FsPath → Prop} {fs1 fs2 fs3 : FS}
    (h12 : EvolvesP W fs1 fs2) (h23 : EvolvesP W fs2 fs3) :
    EvolvesP W fs1 fs3 := by
  obtain ⟨hl12, ext12, hk12, hw12⟩ := h12
  obtain ⟨hl23, ext23, hk23, hw23⟩ := h23
  refine ⟨fun q hq => (hl23 q hq).trans (hl12 q hq),
    ext12 ++ ext23, ?_, ?_⟩
  · rw [hk23, hk12, List.append_assoc]
  · intro k hk
    rcases List.mem_append.mp hk with hk | hk
    · exact hw12 k hk
    · exact hw23 k hk

theorem evolvesP_mono {W V : FsPath → Prop} {fs fs' : FS}
    (hWV : ∀ q, W q → V q) (h : EvolvesP W fs fs') : EvolvesP V fs fs' := by
  obtain ⟨hl, ext, hk, hw⟩ := h
  exact ⟨fun q hq => hl q (fun hWq => hq (hWV q hWq)), ext, hk,
    fun k hk => hWV k (hw k hk)⟩

theorem evolvesP_setFile (W : FsPath → Prop) (fs : FS) (p : FsPath)
    (c : String) (hp : W p) : EvolvesP W fs (setFile fs p c) := by
  refine ⟨fun q hq => lookupFile_setFile_ne fs p q c (fun he => hq (he ▸ hp)), ?_⟩
  cases hs : lookupFile fs p with
  | none =>
    exact ⟨[p], fsKeys_setFile_new fs p c hs, by simpa using hp⟩
  | some d =>
    refine ⟨[], by simp [fsKeys_setFile_mem fs p c (by simp [hs])], by simp⟩

/-- No file ever disappears along an evolution. -/
theorem evolvesP_isSome_mono {W : FsPath → Prop} {fs fs' : FS}
    (h : EvolvesP W fs fs') (p : FsPath)
    (hp : (lookupFile fs p).isSome) : (lookupFile fs' p).isSome := by
  obtain ⟨-, ext, hk, -⟩ := h
  rw [lookupFile_isSome_iff_mem] at hp ⊢
  rw [hk]
  exact List.mem_append.mpr (Or.inl hp)

/-- No directory ever disappears along an evolution. -/
theorem evolvesP_isdir_mono {W : FsPath → Prop} {fs fs' : FS}
    (h : EvolvesP W fs fs') (d : FsPath)
    (hd : isdir fs d = true) : isdir fs' d = true := by
  obtain ⟨-, ext, hk, -⟩ := h
  rw [isdir_eq_keys] at hd ⊢
  rw [hk]
  obtain ⟨k, hkmem, hkpred⟩ := List.any_eq_true.mp hd
  exact List.any_eq_true.mpr ⟨k, List.mem_append.mpr (Or.inl hkmem), hkpred⟩

/-- A directory query untouched by the writes is preserved exactly. -/
theorem evolvesP_isdir_frame {W : FsPath → Prop} {fs fs' : FS}
    (h : EvolvesP W fs fs') (d : FsPath)
    (hdW : ∀ k, W k → ¬ d <+: k) : isdir fs' d = isdir fs d := by
  obtain ⟨-, ext, hk, hw⟩ := h
  rw [isdir_eq_keys, isdir_eq_keys, hk, List.any_append]
  have hext : ext.any (fun k => d.isPrefixOf k && d ≠ k) = false := by
    rw [List.any_eq_false]
    intro k hkm
    have hnp := hdW k (hw k hkm)
    simp [List.isPrefixOf_iff_prefix, hnp]
  rw [hext, Bool.or_false]

/-- A directory listing untouched by the writes is preserved exactly. -/
theorem evolvesP_listdir_frame {W : FsPath → Prop} {fs fs' : FS}
    (h : EvolvesP W fs fs') (d : FsPath)
    (hdW : ∀ k, W k → childName d k = none) :
    listdir fs' d = listdir fs d := by
  obtain ⟨-, ext, hk, hw⟩ := h
  rw [listdir_eq_keys, listdir_eq_keys, hk, List.filterMap_append]
  have hext : ext.filterMap (childName d) = [] := by
    rw [List.filterMap_eq_nil]
    intro k hkm
    exact hdW k (hw k hkm)
  rw [hext, List.append_nil]

/-- Entries of a prefix are entries of the longer list. -/
theorem prefix_get?_eq {a b : List String} (h : a <+: b) (i : Nat)
    (hi : i < a.length) : b.get? i = a.get? i := by
  obtain ⟨t, rfl⟩ := h
  exact List.get?_append hi

/-- Lists that disagree at a common index are not prefix-related. -/
theorem not_prefix_of_get?_ne {a b : List String} (i : Nat) (x y : String)
    (ha : a.get? i = some x) (hb : b.get? i = some y) (hxy : x ≠ y) :
    ¬ a <+: b := by
  intro hp
  have hi : i < a.length := by
    by_contra hni
    rw [List.get?_eq_none.mpr (by omega)] at ha
    exact Option.noConfusion ha
  rw [prefix_get?_eq hp i hi, ha] at hb
  exact hxy (Option.some.inj hb)

/-- A path below `pref` is not below `d` when `pref` and `d` disagree at
a common index. -/
theorem not_prefix_of_under {pref d k : List String} (i : Nat) (x y : String)
    (hpref : pref.get? i = some x) (hd : d.get? i = some y) (hxy : x ≠ y)
    (hk : pref <+: k) : ¬ d <+: k := by
  intro hdk
  have hip : i < pref.length := by
    by_contra hni
    rw [List.get?_eq_none.mpr (by omega)] at hpref
    exact Option.noConfusion hpref
  have hkx : k.get? i = some x := by rw [prefix_get?_eq hk i hip]; exact hpref
  exact not_prefix_of_get?_ne i y x hd hkx (fun h => hxy h.symm) hdk

/-- Only equal final segments give prefix-related sibling paths. -/
theorem append_singleton_pref {A : List String} {m n : String}
    (h : A ++ [m] <+: A ++ [n]) : m = n := by
  have heq := h.eq_of_length (by simp)
  simpa using heq

/-- `childName` is `none` off the subtree of `d`. -/
theorem childName_none_of_not_pref {d k : FsPath} (h : ¬ d <+: k) :
    childName d k = none := by
  unfold childName
  rw [if_neg]
  intro hp
  exact h (List.isPrefixOf_iff_prefix.mp hp)

/-- Membership in the deduplicated list is membership. -/
theorem mem_dedupNames {l : List String} {n : String} :
    n ∈ dedupNames l ↔ n ∈ l := by
  induction l with
  | nil => simp [dedupNames]
  | cons x xs ih =>
    by_cases hx : x ∈ xs
    · simp only [dedupNames, if_pos hx, ih, List.mem_cons]
      constructor
      · exact Or.inr
      · rintro (rfl | hm)
        · exact hx
        · exact hm
    · simp [dedupNames, hx, ih]

/-- The deduplicated list has no duplicates. -/
theorem dedupNames_nodup (l : List String) : (dedupNames l).Nodup := by
  induction l with
  | nil => simp [dedupNames]
  | cons x xs ih =>
    by_cases hx : x ∈ xs
    · simpa [dedupNames, hx] using ih
    · simp only [dedupNames, if_neg hx, List.nodup_cons]
      exact ⟨fun hmem => hx (mem_dedupNames.mp hmem), ih⟩

/-- Directory listings never repeat a name. -/
theorem listdir_nodup (fs : FS) (d : FsPath) : (listdir fs d).Nodup :=
  dedupNames_nodup _

/-- Evolution along a pure fold whose every step evolves. -/
theorem evolvesP_foldl {α : Type} (W : FsPath → Prop) (f : FS → α → FS)
    (hstep : ∀ fs x, EvolvesP W fs (f fs x)) :
    ∀ (l : List α) (fs : FS), EvolvesP W fs (l.foldl f fs) := by
  intro l
  induction l with
  | nil => intro fs; exact evolvesP_refl W fs
  | cons x xs ih =>
    intro fs
    exact evolvesP_trans (hstep fs x) (ih (f fs x))

/-- Evolution along an effectful fold whose every step evolves. -/
theorem evolvesP_exceptFoldl {α : Type} (W : FsPath → Prop)
    (f : FS → α → Except Err FS)
    (hstep : ∀ fs x fs', f fs x = .ok fs' → EvolvesP W fs fs') :
    ∀ (l : List α) (fs fs' : FS), exceptFoldl f fs l = .ok fs' →
      EvolvesP W fs fs' := by
  intro l
  induction l with
  | nil =>
    intro fs fs' h
    simp only [exceptFoldl, Except.ok.injEq] at h
    subst h
    exact evolvesP_refl W fs
  | cons x xs ih =>
    intro fs fs' h
    unfold exceptFoldl at h
    cases hf : f fs x with
    | error err =>
      simp only [hf] at h
      exact Except.noConfusion h
    | ok mid =>
      simp only [hf] at h
      exact evolvesP_trans (hstep fs x mid hf) (ih mid fs' h)

/-- Successful `copyFileTo` reads the source and writes the target. -/
theorem copyFileTo_ok {fs fs' : FS} {src dst : FsPath}
    (h : copyFileTo fs src dst = .ok fs') :
    ∃ c, lookupFile fs src = some c ∧ fs' = setFile fs dst c := by
  unfold copyFileTo at h
  cases hs : lookupFile fs src with
  | none =>
    simp only [hs] at h
    split_ifs at h <;> exact Except.noConfusion h
  | some c =>
    simp only [hs, Except.ok.injEq] at h
    exact ⟨c, rfl, h.symm⟩

/-- Successful `copyIntoDir` with a known basename. -/
theorem copyIntoDir_ok {fs fs' : FS} {src dstDir : FsPath} {n : String}
    (hlast : src.getLast? = some n)
    (h : copyIntoDir fs src dstDir = .ok fs') :
    ∃ c, lookupFile fs src = some c ∧ fs' = setFile fs (dstDir ++ [n]) c := by
  unfold copyIntoDir at h
  simp only [hlast] at h
  exact copyFileTo_ok h

/-- Successful `copytree` unpacked. -/
theorem copytree_ok {ign : String → Bool} {fs fs' : FS} {src dst : FsPath}
    (h : copytree ign fs src dst = .ok fs') :
    isdir fs dst = false ∧ isdir fs src = true ∧
    fs' = (entriesUnder fs src).foldl
      (fun acc e => if e.1.all (fun seg => !ign seg)
        then setFile acc (dst ++ e.1) e.2 else acc) fs := by
  unfold copytree at h
  split_ifs at h with h1 h2 <;>
    first
    | exact Except.noConfusion h
    | (simp only [Except.ok.injEq] at h
       exact ⟨by simp_all, by simp_all, h.symm⟩)

/-- A successful `copytree` only writes below `dst`. -/
theorem evolvesP_copytree (W : FsPath → Prop) {ign : String → Bool}
    {fs fs' : FS} {src dst : FsPath}
    (hdst : ∀ r : FsPath, W (dst ++ r))
    (h : copytree ign fs src dst = .ok fs') : EvolvesP W fs fs' := by
  obtain ⟨-, -, hfs'⟩ := copytree_ok h
  subst hfs'
  apply evolvesP_foldl W _ (fun g e => ?_) (entriesUnder fs src) fs
  by_cases he : e.1.all (fun seg => !ign seg)
  · simpa [he] using evolvesP_setFile W g (dst ++ e.1) e.2 (hdst e.1)
  · simpa [he] using evolvesP_refl W g

/-- C7 counterexample: on `fs0` the shared-5MW target directory already
exists and already holds `AeroData.dat` (content `"old"`), yet a single
materialization run succeeds and replaces it with the source content
`"new"` — `_build_5MW_directories` calls `shutil.copy2` on every
top-level file of an existing target directory unconditionally, so it is
not the case that only missing files are copied: an existing file is
destructively overwritten. -/
theorem c7_counterexample :
    lookupFile fs0 (tgt5MW ++ ["AeroData.dat"]) = some "old" ∧
    runMat0_ok = true ∧
    lookupFile runMat0 (tgt5MW ++ ["AeroData.dat"]) = some "new" := by
  refine ⟨rfl, ?_, ?_⟩ <;> decide

/-- Every path below `dst` is below `dst`. -/
theorem prefix_append_all (dst : FsPath) (r : FsPath) : dst <+: dst ++ r :=
  List.prefix_append dst r

/-- The per-case test-directory step only writes below the test
directory. -/
theorem btd_step_evolves (ign : String → Bool) (g g' : FS)
    (h : build_test_directory_step ⟨["cwd"], ign⟩ g (matInp, matTb) = .ok g') :
    EvolvesP (fun q => matTb <+: q) g g' := by
  simp only [build_test_directory_step] at h
  split_ifs at h with hdir
  · refine evolvesP_exceptFoldl _ _ (fun fs f fs' hf => ?_) _ g g' h
    split_ifs at hf with hcwd
    · obtain ⟨c, -, hfs'⟩ :=
        @copyIntoDir_ok fs fs' (matInp ++ [f]) matTb f (by simp) hf
      subst hfs'
      exact evolvesP_setFile _ fs _ c (prefix_append_all matTb [f])
    · simp only [Except.ok.injEq] at hf
      subst hf
      exact evolvesP_refl _ fs
  · exact evolvesP_copytree _ (fun r => prefix_append_all matTb r) h

/-- When the working directory holds none of the listed names, the
copy-from-cwd loop of `_build_test_directory` is a no-op. -/
theorem cwd_fold_noop (inp tb : FsPath) (g : FS) (names : List String)
    (hcwd : ∀ f : String, lookupFile g (["cwd"] ++ [f]) = none) :
    exceptFoldl (fun fs f => if isfile fs (["cwd"] ++ [f])
      then copyIntoDir fs (inp ++ [f]) tb else .ok fs) g names = .ok g := by
  induction names with
  | nil => rfl
  | cons n ns ih =>
    unfold exceptFoldl
    have hn : isfile g (["cwd"] ++ [n]) = false := by
      simpa [isfile] using hcwd n
    simp only [hn, Bool.false_eq_true, if_false, ite_false]
    exact ih

/-- The beamdyn-inputs loop at the exMat plan: it reads the three driver
files from the input fixture and writes them, in order, into the test
directory. -/
theorem bd_fold_spec (g g' : FS)
    (h : exceptFoldl (fun fs f => copyIntoDir fs (matInp ++ [f]) matTb)
      g bdFiles = .ok g') :
    ∃ c1 c2 c3,
      lookupFile g (matInp ++ ["bd_driver.inp"]) = some c1 ∧
      lookupFile g (matInp ++ ["bd_primary.inp"]) = some c2 ∧
      lookupFile g (matInp ++ ["beam_props.inp"]) = some c3 ∧
      g' = setFile (setFile (setFile g (matTb ++ ["bd_driver.inp"]) c1)
        (matTb ++ ["bd_primary.inp"]) c2) (matTb ++ ["beam_props.inp"]) c3 := by
  simp only [bdFiles, exceptFoldl] at h
  cases h1 : copyIntoDir g (matInp ++ ["bd_driver.inp"]) matTb with
  | error err => simp only [h1] at h; exact Except.noConfusion h
  | ok g1 =>
    simp only [h1] at h
    obtain ⟨c1, hc1, hg1⟩ :=
      @copyIntoDir_ok g g1 (matInp ++ ["bd_driver.inp"]) matTb "bd_driver.inp"
        (by decide) h1
    cases h2 : copyIntoDir g1 (matInp ++ ["bd_primary.inp"]) matTb with
    | error err => simp only [h2] at h; exact Except.noConfusion h
    | ok g2 =>
      simp only [h2] at h
      obtain ⟨c2, hc2, hg2⟩ :=
        @copyIntoDir_ok g1 g2 (matInp ++ ["bd_primary.inp"]) matTb
          "bd_primary.inp" (by decide) h2
      cases h3 : copyIntoDir g2 (matInp ++ ["beam_props.inp"]) matTb with
      | error err => simp only [h3] at h; exact Except.noConfusion h
      | ok g3 =>
        simp only [h3, Except.ok.injEq] at h
        obtain ⟨c3, hc3, hg3⟩ :=
          @copyIntoDir_ok g2 g3 (matInp ++ ["beam_props.inp"]) matTb
            "beam_props.inp" (by decide) h3
        subst hg1
        rw [lookupFile_setFile_ne g _ _ c1 (by decide)] at hc2
        subst hg2
        rw [lookupFile_setFile_ne _ _ _ c2 (by decide),
          lookupFile_setFile_ne g _ _ c1 (by decide)] at hc3
        subst hg3
        subst h
        exact ⟨c1, c2, c3, hc1, hc2, hc3, rfl⟩

/-- One copy-if-absent DLL iteration: afterwards the DLL is present, and
only its own target path was possibly written. -/
theorem copy_if_absent_spec (g g' : FS) (src : FsPath) (n : String)
    (hlast : src.getLast? = some n)
    (h : (if isfile g (tgtSD ++ [n]) then Except.ok g
          else copyIntoDir g src tgtSD) = .ok g') :
    EvolvesP (fun q => q = tgtSD ++ [n]) g g' ∧
      (lookupFile g' (tgtSD ++ [n])).isSome := by
  split_ifs at h with hf
  · simp only [Except.ok.injEq] at h
    subst h
    exact ⟨evolvesP_refl _ g, by simpa [isfile] using hf⟩
  · obtain ⟨c, hc, hg'⟩ := @copyIntoDir_ok g g' src tgtSD n hlast h
    subst hg'
    exact ⟨evolvesP_setFile _ g _ c rfl, by simp [lookupFile_setFile_self]⟩

/-- `_check_5MW_dll_files` at the exMat plan: it only writes the three
DLL target paths, and afterwards all three DLLs exist in the shared
`ServoData` target. -/
theorem check_5MW_spec (g g' : FS)
    (h : Executor.check_5MW_dll_files exMat g = .ok g') :
    EvolvesP (fun q => tgtSD <+: q) g g' ∧
    ∀ n ∈ dllNames, (lookupFile g' (tgtSD ++ [n])).isSome := by
  have hdef : Executor.check_5MW_dll_files exMat g =
      exceptFoldl
        (fun fs f =>
          if isfile fs (tgtSD ++ [f.getLastD ""]) then .ok fs
          else copyIntoDir fs (srcSD ++ f) tgtSD)
        g disconFiles := rfl
  rw [hdef] at h
  have e1 : (["DISCON", "build", "DISCON.dll"] : FsPath).getLastD "" =
    "DISCON.dll" := rfl
  have e2 : (["DISCON_ITI", "build", "DISCON_ITIBarge.dll"] : FsPath).getLastD "" =
    "DISCON_ITIBarge.dll" := rfl
  have e3 : (["DISCON_OC3", "build", "DISCON_OC3Hywind.dll"] : FsPath).getLastD "" =
    "DISCON_OC3Hywind.dll" := rfl
  simp only [disconFiles, exceptFoldl, e1, e2, e3] at h
  cases h1 : (if isfile g (tgtSD ++ ["DISCON.dll"]) then Except.ok g
      else copyIntoDir g (srcSD ++ ["DISCON", "build", "DISCON.dll"]) tgtSD) with
  | error err => simp only [h1] at h; exact Except.noConfusion h
  | ok g1 =>
    simp only [h1] at h
    obtain ⟨he1, hs1⟩ := copy_if_absent_spec g g1 _ "DISCON.dll" (by decide) h1
    cases h2 : (if isfile g1 (tgtSD ++ ["DISCON_ITIBarge.dll"]) then Except.ok g1
        else copyIntoDir g1 (srcSD ++ ["DISCON_ITI", "build", "DISCON_ITIBarge.dll"]) tgtSD) with
    | error err => simp only [h2] at h; exact Except.noConfusion h
    | ok g2 =>
      simp only [h2] at h
      obtain ⟨he2, hs2⟩ := copy_if_absent_spec g1 g2 _ "DISCON_ITIBarge.dll" (by decide) h2
      cases h3 : (if isfile g2 (tgtSD ++ ["DISCON_OC3Hywind.dll"]) then Except.ok g2
          else copyIntoDir g2 (srcSD ++ ["DISCON_OC3", "build", "DISCON_OC3Hywind.dll"]) tgtSD) with
      | error err => simp only [h3] at h; exact Except.noConfusion h
      | ok g3 =>
        simp only [h3, Except.ok.injEq] at h
        obtain ⟨he3, hs3⟩ := copy_if_absent_spec g2 g3 _ "DISCON_OC3Hywind.dll" (by decide) h3
        subst h
        have hpref : ∀ n : String, ∀ q, q = tgtSD ++ [n] → tgtSD <+: q :=
          fun n q hq => hq ▸ prefix_append_all tgtSD [n]
        refine ⟨evolvesP_trans (evolvesP_mono (hpref _) he1)
          (evolvesP_trans (evolvesP_mono (hpref _) he2)
            (evolvesP_mono (hpref _) he3)), ?_⟩
        intro n hn
        simp only [dllNames, List.mem_cons, List.mem_singleton,
          List.not_mem_nil, or_false] at hn
        rcases hn with rfl | rfl | rfl
        · exact evolvesP_isSome_mono he3 _ (evolvesP_isSome_mono he2 _ hs1)
        · exact evolvesP_isSome_mono he3 _ hs2
        · exact hs3

/-- `_build_5MW_directories` at the exMat plan, in terms of `eStep`. -/
theorem b5_eq (g : FS) :
    Executor.build_5MW_directories exMat g =
      if isdir g tgt5MW then exceptFoldl eStep g (listdir g src5MW)
      else copytree (fun _ => false) g src5MW tgt5MW := rfl

/-- After folding a list of copies below `dst`, each copied path holds a
file. -/
theorem foldl_copy_isSome (dst : FsPath) (e : FsPath × String) :
    ∀ (l : List (FsPath × String)) (acc : FS), e ∈ l →
    (lookupFile (l.foldl (fun a x => setFile a (dst ++ x.1) x.2) acc)
      (dst ++ e.1)).isSome := by
  intro l
  induction l with
  | nil => intro acc he; cases he
  | cons x xs ih =>
    intro acc he
    rcases List.mem_cons.mp he with he | hm
    · subst he
      simp only [List.foldl_cons]
      exact evolvesP_isSome_mono
        (evolvesP_foldl (fun _ => True) _
          (fun fs y => evolvesP_setFile _ fs _ _ trivial) xs _)
        _ (by simp [lookupFile_setFile_self])
    · simp only [List.foldl_cons]
      exact ih _ hm

/-- A present file strictly below `p` makes `p` a directory. -/
theorem isdir_of_key (fs : FS) (p k : FsPath) (hpk : p <+: k) (hne : p ≠ k)
    (hk : (lookupFile fs k).isSome) : isdir fs p = true := by
  rw [isdir_eq_keys]
  rw [lookupFile_isSome_iff_mem] at hk
  refine List.any_eq_true.mpr ⟨k, hk, ?_⟩
  simp [List.isPrefixOf_iff_prefix, hpk, hne]

/-- Copying a non-empty tree makes the destination a directory. -/
theorem copytree_isdir_dst {g g' : FS} {src dst : FsPath}
    (h : copytree (fun _ => false) g src dst = .ok g') :
    isdir g' dst = true := by
  obtain ⟨-, hsrc, hg'⟩ := copytree_ok h
  obtain ⟨ent, hmem, hpred⟩ := List.any_eq_true.mp hsrc
  have hpred' := hpred
  rw [Bool.and_eq_true] at hpred'
  obtain ⟨hp1, hp2⟩ := hpred'
  have hpfx : src <+: ent.1 := List.isPrefixOf_iff_prefix.mp hp1
  have hne : src ≠ ent.1 := of_decide_eq_true hp2
  have hrel : (ent.1.drop src.length, ent.2) ∈ entriesUnder g src := by
    apply List.mem_filterMap.mpr
    exact ⟨ent, hmem, by rw [if_pos hpred]⟩
  have hall : ∀ r : FsPath,
      (r.all (fun seg => !(fun _ : String => false) seg)) = true := by
    intro r; simp
  simp only [hall, if_true, ite_true] at hg'
  have hsome := foldl_copy_isSome dst (ent.1.drop src.length, ent.2)
    (entriesUnder g src) g hrel
  rw [← hg'] at hsome
  have hlt : src.length < ent.1.length := by
    rcases Nat.lt_or_ge src.length ent.1.length with hlt | hge
    · exact hlt
    · exact absurd (hpfx.eq_of_length (Nat.le_antisymm hpfx.length_le hge))
        hne
  have hrne : (ent.1.drop src.length).length ≠ 0 := by
    simp only [List.length_drop]
    omega
  apply isdir_of_key g' dst (dst ++ ent.1.drop src.length)
    (prefix_append_all dst _) ?_ hsome
  intro heq
  have := congrArg List.length heq
  simp only [List.length_append] at this
  omega

/-- A path below a written 5MW target is not below any 5MW source. -/
theorem W5_not_src (names : List String) (name : String) (k : FsPath)
    (hW : W5 names k) : ¬ (src5MW ++ [name]) <+: k := by
  obtain ⟨m, -, hmk⟩ := hW
  exact not_prefix_of_under 1 "build" "reg_tests"
    (show (tgt5MW ++ [m]).get? 1 = some "build" from rfl)
    (show (src5MW ++ [name]).get? 1 = some "reg_tests" from rfl)
    (by decide) hmk

/-- A 5MW target path is not below any 5MW source path. -/
theorem tgt_not_under_src (m name : String) (k : FsPath)
    (hk : tgt5MW ++ [m] <+: k) : ¬ (src5MW ++ [name]) <+: k :=
  not_prefix_of_under 1 "build" "reg_tests"
    (show (tgt5MW ++ [m]).get? 1 = some "build" from rfl)
    (show (src5MW ++ [name]).get? 1 = some "reg_tests" from rfl)
    (by decide) hk

/-- No 5MW source path is a target path. -/
theorem src_ne_tgt (m name : String) : tgt5MW ++ [m] ≠ src5MW ++ [name] := by
  intro heq
  have h1 : (tgt5MW ++ [m]).get? 1 = some "build" := rfl
  rw [heq] at h1
  exact absurd (Option.some.inj h1).symm (by decide)

/-- Postcondition of the 5MW directory walk: writes stay below the
visited target names, and each visited non-`ServoData` name ends up
established in the final state — the target subdirectory exists when the
source one does, and the target file carries the source file's content
otherwise. -/
theorem e_fold_post : ∀ (names : List String), names.Nodup →
    ∀ (g fs' : FS), exceptFoldl eStep g names = .ok fs' →
    EvolvesP (W5 names) g fs' ∧
    ∀ name ∈ names, name ≠ "ServoData" →
      (isdir fs' (src5MW ++ [name]) = true →
        isdir fs' (tgt5MW ++ [name]) = true) ∧
      (isdir fs' (src5MW ++ [name]) = false →
        ∃ c, lookupFile fs' (src5MW ++ [name]) = some c ∧
             lookupFile fs' (tgt5MW ++ [name]) = some c) := by
  intro names
  induction names with
  | nil =>
    intro _ g fs' h
    simp only [exceptFoldl, Except.ok.injEq] at h
    subst h
    exact ⟨evolvesP_refl _ g, by simp⟩
  | cons n ns ih =>
    intro hnd g fs' h
    obtain ⟨hn_ns, hns_nd⟩ := List.nodup_cons.mp hnd
    unfold exceptFoldl at h
    cases hstep : eStep g n with
    | error err => simp only [hstep] at h; exact Except.noConfusion h
    | ok g1 =>
      simp only [hstep] at h
      obtain ⟨hev1, hpost⟩ := ih hns_nd g1 fs' h
      have hWsub : ∀ q, W5 ns q → W5 (n :: ns) q := by
        rintro q ⟨m, hm, hq⟩
        exact ⟨m, List.mem_cons_of_mem n hm, hq⟩
      -- analyze the step for name `n`
      unfold eStep at hstep
      by_cases hsd : n = "ServoData"
      · rw [if_pos hsd] at hstep
        simp only [Except.ok.injEq] at hstep
        subst hstep
        refine ⟨evolvesP_mono hWsub hev1, ?_⟩
        intro name hname hnsd
        rcases List.mem_cons.mp hname with rfl | hmem
        · exact absurd hsd hnsd
        · exact hpost name hmem hnsd
      · rw [if_neg hsd] at hstep
        by_cases hs : isdir g (src5MW ++ [n]) = true
        · rw [if_pos hs] at hstep
          by_cases ht : isdir g (tgt5MW ++ [n]) = true
          · -- target subdirectory already present: no write
            rw [if_pos ht] at hstep
            simp only [Except.ok.injEq] at hstep
            subst hstep
            refine ⟨evolvesP_mono hWsub hev1, ?_⟩
            intro name hname hnsd
            rcases List.mem_cons.mp hname with rfl | hmem
            · refine ⟨fun _ => evolvesP_isdir_mono hev1 _ ht, fun habs => ?_⟩
              rw [evolvesP_isdir_frame hev1 _
                (fun k hW => W5_not_src ns name k hW), hs] at habs
              exact Bool.noConfusion habs
            · exact hpost name hmem hnsd
          · -- copy the whole source subtree
            rw [if_neg ht] at hstep
            have hev0 : EvolvesP (W5 (n :: ns)) g g1 :=
              evolvesP_copytree _
                (fun r => ⟨n, List.mem_cons_self n ns,
                  prefix_append_all (tgt5MW ++ [n]) r⟩)
                hstep
            have hdir1 : isdir g1 (tgt5MW ++ [n]) = true :=
              copytree_isdir_dst hstep
            refine ⟨evolvesP_trans hev0 (evolvesP_mono hWsub hev1), ?_⟩
            intro name hname hnsd
            rcases List.mem_cons.mp hname with rfl | hmem
            · refine ⟨fun _ => evolvesP_isdir_mono hev1 _ hdir1, fun habs => ?_⟩
              have hfr1 : isdir g1 (src5MW ++ [name]) = isdir g (src5MW ++ [name]) :=
                evolvesP_isdir_frame
                  (evolvesP_copytree (fun q => tgt5MW ++ [name] <+: q)
                    (fun r => prefix_append_all (tgt5MW ++ [name]) r) hstep)
                  _ (fun k hW => tgt_not_under_src name name k hW)
              rw [evolvesP_isdir_frame hev1 _
                (fun k hW => W5_not_src ns name k hW), hfr1, hs] at habs
              exact Bool.noConfusion habs
            · exact hpost name hmem hnsd
        · -- source is a plain file: copy2 it
          rw [if_neg hs] at hstep
          obtain ⟨c, hc, hg1⟩ := copyFileTo_ok hstep
          have hev0 : EvolvesP (W5 (n :: ns)) g g1 := by
            subst hg1
            exact evolvesP_setFile _ g _ c
              ⟨n, List.mem_cons_self n ns, List.prefix_refl _⟩
          refine ⟨evolvesP_trans hev0 (evolvesP_mono hWsub hev1), ?_⟩
          intro name hname hnsd
          rcases List.mem_cons.mp hname with rfl | hmem
          · have hsrc_fs' : lookupFile fs' (src5MW ++ [name]) = some c := by
              rw [hev1.1 _ (fun hW => W5_not_src ns name _ hW (List.prefix_refl _))]
              subst hg1
              rw [lookupFile_setFile_ne _ _ _ _ (fun he => src_ne_tgt name name he.symm)]
              exact hc
            have htgt_fs' : lookupFile fs' (tgt5MW ++ [name]) = some c := by
              rw [hev1.1 _ (fun hW => ?_)]
              · subst hg1
                exact lookupFile_setFile_self g _ c
              · obtain ⟨m, hm, hpp⟩ := hW
                exact hn_ns (append_singleton_pref hpp ▸ hm)
            refine ⟨fun habs => ?_, fun _ => ⟨c, hsrc_fs', htgt_fs'⟩⟩
            have hfr1 : isdir g1 (src5MW ++ [name]) = isdir g (src5MW ++ [name]) := by
              subst hg1
              exact evolvesP_isdir_frame
                (evolvesP_setFile (fun q => q = tgt5MW ++ [name]) g _ c rfl)
                _ (fun k hk => hk ▸ (fun hp =>
                  tgt_not_under_src name name _ (List.prefix_refl _) hp))
            rw [evolvesP_isdir_frame hev1 _
              (fun k hW => W5_not_src ns name k hW), hfr1] at habs
            simp [habs] at hs
          · exact hpost name hmem hnsd

/-- Lists that disagree at a common index are distinct. -/
theorem ne_of_get?_ne {a b : List String} (i : Nat) (x y : String)
    (ha : a.get? i = some x) (hb : b.get? i = some y) (hxy : x ≠ y) : a ≠ b :=
  fun heq => hxy (by rw [heq] at ha; rw [ha] at hb; exact Option.some.inj hb)

/-- On a state where every visited name is already established, the 5MW
directory walk is the identity. -/
theorem e_fold_noop : ∀ (names : List String) (fs' : FS),
    (∀ name ∈ names, name ≠ "ServoData" →
      (isdir fs' (src5MW ++ [name]) = true →
        isdir fs' (tgt5MW ++ [name]) = true) ∧
      (isdir fs' (src5MW ++ [name]) = false →
        ∃ c, lookupFile fs' (src5MW ++ [name]) = some c ∧
             lookupFile fs' (tgt5MW ++ [name]) = some c)) →
    exceptFoldl eStep fs' names = .ok fs' := by
  intro names
  induction names with
  | nil => intro fs' _; rfl
  | cons n ns ih =>
    intro fs' hfacts
    have hstep : eStep fs' n = .ok fs' := by
      unfold eStep
      by_cases hsd : n = "ServoData"
      · rw [if_pos hsd]
      · rw [if_neg hsd]
        obtain ⟨h1, h2⟩ := hfacts n (List.mem_cons_self n ns) hsd
        by_cases hs : isdir fs' (src5MW ++ [n]) = true
        · rw [if_pos hs, if_pos (h1 hs)]
        · have hs' : isdir fs' (src5MW ++ [n]) = false := by
            simpa using hs
          rw [if_neg hs]
          obtain ⟨c, hcs, hct⟩ := h2 hs'
          unfold copyFileTo
          simp only [hcs]
          rw [setFile_id fs' _ c hct]
    unfold exceptFoldl
    simp only [hstep]
    exact ih fs' (fun name hm => hfacts name (List.mem_cons_of_mem _ hm))

/-- On a state where the three beamdyn inputs already carry their source
content, the beamdyn-inputs loop is the identity. -/
theorem bd_fold_noop (fs' : FS) (c1 c2 c3 : String)
    (hs1 : lookupFile fs' (matInp ++ ["bd_driver.inp"]) = some c1)
    (ht1 : lookupFile fs' (matTb ++ ["bd_driver.inp"]) = some c1)
    (hs2 : lookupFile fs' (matInp ++ ["bd_primary.inp"]) = some c2)
    (ht2 : lookupFile fs' (matTb ++ ["bd_primary.inp"]) = some c2)
    (hs3 : lookupFile fs' (matInp ++ ["beam_props.inp"]) = some c3)
    (ht3 : lookupFile fs' (matTb ++ ["beam_props.inp"]) = some c3) :
    exceptFoldl (fun fs f => copyIntoDir fs (matInp ++ [f]) matTb)
      fs' bdFiles = .ok fs' := by
  have e1 : copyIntoDir fs' (matInp ++ ["bd_driver.inp"]) matTb = .ok fs' := by
    unfold copyIntoDir copyFileTo
    simp only [show (matInp ++ ["bd_driver.inp"]).getLast? =
      some "bd_driver.inp" from rfl, hs1]
    rw [setFile_id fs' _ c1 ht1]
  have e2 : copyIntoDir fs' (matInp ++ ["bd_primary.inp"]) matTb = .ok fs' := by
    unfold copyIntoDir copyFileTo
    simp only [show (matInp ++ ["bd_primary.inp"]).getLast? =
      some "bd_primary.inp" from rfl, hs2]
    rw [setFile_id fs' _ c2 ht2]
  have e3 : copyIntoDir fs' (matInp ++ ["beam_props.inp"]) matTb = .ok fs' := by
    unfold copyIntoDir copyFileTo
    simp only [show (matInp ++ ["beam_props.inp"]).getLast? =
      some "beam_props.inp" from rfl, hs3]
    rw [setFile_id fs' _ c3 ht3]
  simp only [bdFiles, exceptFoldl, e1, e2, e3]

/-- The materialization pipeline at the exMat plan, decomposed: a
successful run factors through its four effective steps (the
shared-directory loop is empty for a beamdyn-only plan). -/
theorem pipeline_intro (ign : String → Bool) (fs out : FS)
    (h : Executor.build_test_output_directories ⟨["cwd"], ign⟩ exMat fs = .ok out) :
    ∃ fsB fsC fsD,
      build_test_directory_step ⟨["cwd"], ign⟩ fs (matInp, matTb) = .ok fsB ∧
      exceptFoldl (fun g f => copyIntoDir g (matInp ++ [f]) matTb)
        fsB bdFiles = .ok fsC ∧
      Executor.check_5MW_dll_files exMat fsC = .ok fsD ∧
      Executor.build_5MW_directories exMat fsD = .ok out := by
  have h7 : exMat.cases.findIdx? (· = "bd_curved_beam") = some 0 := rfl
  have h8 : exMat.inputs.get? 0 = some matInp := rfl
  have h9 : exMat.test_build.get? 0 = some matTb := rfl
  unfold Executor.build_test_output_directories Executor.build_test_directory
    Executor.build_beamdyn_output_directories at h
  simp only [show exceptMapM case_map_lookup exMat.cases =
      .ok [Category.beamdyn] from rfl,
    show ([Category.beamdyn].contains Category.linear) = false from rfl,
    show ([Category.beamdyn].contains Category.regression) = false from rfl,
    show ([Category.beamdyn].contains Category.beamdyn) = true from rfl,
    show exMat.cases.filter
      (fun c => CASE_MAP.lookup c == some Category.beamdyn) =
      ["bd_curved_beam"] from rfl,
    show exMat.inputs.zip exMat.test_build = [(matInp, matTb)] from rfl,
    h7, h8, h9, Bool.false_eq_true, if_false, ite_false, List.append_nil,
    List.nil_append, exceptFoldl] at h
  cases hB : build_test_directory_step ⟨["cwd"], ign⟩ fs (matInp, matTb) with
  | error err => simp only [hB] at h; exact Except.noConfusion h
  | ok fsB =>
    simp only [hB] at h
    cases hc1 : copyIntoDir fsB (matInp ++ ["bd_driver.inp"]) matTb with
    | error err => simp only [hc1] at h; exact Except.noConfusion h
    | ok g1 =>
      simp only [hc1] at h
      cases hc2 : copyIntoDir g1 (matInp ++ ["bd_primary.inp"]) matTb with
      | error err => simp only [hc2] at h; exact Except.noConfusion h
      | ok g2 =>
        simp only [hc2] at h
        cases hc3 : copyIntoDir g2 (matInp ++ ["beam_props.inp"]) matTb with
        | error err => simp only [hc3] at h; exact Except.noConfusion h
        | ok g3 =>
          simp only [hc3] at h
          cases hD : Executor.check_5MW_dll_files exMat g3 with
          | error err => simp only [hD] at h; exact Except.noConfusion h
          | ok fsD =>
            simp only [hD] at h
            exact ⟨fsB, g3, fsD, rfl,
              by simp only [bdFiles, exceptFoldl, hc1, hc2, hc3],
              hD, h⟩

/-- The converse direction: results of the four effective steps
assemble into the pipeline result. -/
theorem pipeline_elim (ign : String → Bool) (fs fsB fsC fsD out : FS)
    (hB : build_test_directory_step ⟨["cwd"], ign⟩ fs (matInp, matTb) = .ok fsB)
    (hC : exceptFoldl (fun g f => copyIntoDir g (matInp ++ [f]) matTb)
      fsB bdFiles = .ok fsC)
    (hD : Executor.check_5MW_dll_files exMat fsC = .ok fsD)
    (hE : Executor.build_5MW_directories exMat fsD = .ok out) :
    Executor.build_test_output_directories ⟨["cwd"], ign⟩ exMat fs = .ok out := by
  have h7 : exMat.cases.findIdx? (· = "bd_curved_beam") = some 0 := rfl
  have h8 : exMat.inputs.get? 0 = some matInp := rfl
  have h9 : exMat.test_build.get? 0 = some matTb := rfl
  unfold Executor.build_test_output_directories Executor.build_test_directory
    Executor.build_beamdyn_output_directories
  simp only [show exceptMapM case_map_lookup exMat.cases =
      .ok [Category.beamdyn] from rfl,
    show ([Category.beamdyn].contains Category.linear) = false from rfl,
    show ([Category.beamdyn].contains Category.regression) = false from rfl,
    show ([Category.beamdyn].contains Category.beamdyn) = true from rfl,
    show exMat.cases.filter
      (fun c => CASE_MAP.lookup c == some Category.beamdyn) =
      ["bd_curved_beam"] from rfl,
    show exMat.inputs.zip exMat.test_build = [(matInp, matTb)] from rfl,
    h7, h8, h9, Bool.false_eq_true, if_false, ite_false, List.append_nil,
    List.nil_append, exceptFoldl]
  simp only [bdFiles, exceptFoldl] at hC
  cases hc1 : copyIntoDir fsB (matInp ++ ["bd_driver.inp"]) matTb with
  | error err => simp only [hc1] at hC; exact Except.noConfusion hC
  | ok g1 =>
    simp only [hc1] at hC
    cases hc2 : copyIntoDir g1 (matInp ++ ["bd_primary.inp"]) matTb with
    | error err => simp only [hc2] at hC; exact Except.noConfusion hC
    | ok g2 =>
      simp only [hc2] at hC
      cases hc3 : copyIntoDir g2 (matInp ++ ["beam_props.inp"]) matTb with
      | error err => simp only [hc3] at hC; exact Except.noConfusion hC
      | ok g3 =>
        simp only [hc3, Except.ok.injEq] at hC
        subst hC
        simp only [hB, hc1, hc2, hc3, hD, hE]

/-- When all three DLLs are already present, `_check_5MW_dll_files` is
the identity. -/
theorem check_5MW_noop (g : FS)
    (hdll : ∀ n ∈ dllNames, (lookupFile g (tgtSD ++ [n])).isSome) :
    Executor.check_5MW_dll_files exMat g = .ok g := by
  have hdef : Executor.check_5MW_dll_files exMat g =
      exceptFoldl
        (fun fs f =>
          if isfile fs (tgtSD ++ [f.getLastD ""]) then .ok fs
          else copyIntoDir fs (srcSD ++ f) tgtSD)
        g disconFiles := rfl
  rw [hdef]
  have i1 : isfile g (tgtSD ++ ["DISCON.dll"]) = true :=
    hdll _ (by simp [dllNames])
  have i2 : isfile g (tgtSD ++ ["DISCON_ITIBarge.dll"]) = true :=
    hdll _ (by simp [dllNames])
  have i3 : isfile g (tgtSD ++ ["DISCON_OC3Hywind.dll"]) = true :=
    hdll _ (by simp [dllNames])
  simp only [disconFiles, exceptFoldl,
    show (["DISCON", "build", "DISCON.dll"] : FsPath).getLastD "" =
      "DISCON.dll" from rfl,
    show (["DISCON_ITI", "build", "DISCON_ITIBarge.dll"] : FsPath).getLastD "" =
      "DISCON_ITIBarge.dll" from rfl,
    show (["DISCON_OC3", "build", "DISCON_OC3Hywind.dll"] : FsPath).getLastD "" =
      "DISCON_OC3Hywind.dll" from rfl,
    i1, i2, i3, if_true, ite_true]

/-- C7 amended: on the representative beamdyn plan, when the process
working directory holds no files, a second materialization run from the
state the first one produced raises no error and changes nothing — the
filesystem contents stay byte-identical. (The first run, however, may
overwrite existing files, see the counterexample.) -/
theorem c7_idempotent (ign : String → Bool) (fs fs' : FS)
    (hcwd : ∀ f : String, lookupFile fs (["cwd", f]) = none)
    (h : Executor.build_test_output_directories ⟨["cwd"], ign⟩ exMat fs = .ok fs') :
    Executor.build_test_output_directories ⟨["cwd"], ign⟩ exMat fs' = .ok fs' := by
  obtain ⟨fsB, fsC, fsD, hB, hC, hD, hE⟩ := pipeline_intro ign fs fs' h
  have hevB : EvolvesP (fun q => matTb <+: q) fs fsB :=
    btd_step_evolves ign fs fsB hB
  obtain ⟨c1, c2, c3, hc1, hc2, hc3, hfsC⟩ := bd_fold_spec fsB fsC hC
  obtain ⟨hevD, hdllD⟩ := check_5MW_spec fsC fsD hD
  -- the DLL keys make the 5MW target a directory before the walk
  have hne_tgt5 : ∀ n : String, tgt5MW ≠ tgtSD ++ [n] := by
    intro n heq
    have := congrArg List.length heq
    simp [tgtSD, tgt5MW] at this
  have hpfx_tgt5 : ∀ n : String, tgt5MW <+: tgtSD ++ [n] := by
    intro n
    show tgt5MW <+: (tgt5MW ++ ["ServoData"]) ++ [n]
    rw [List.append_assoc]
    exact prefix_append_all tgt5MW _
  have hdirD : isdir fsD tgt5MW = true :=
    isdir_of_key fsD tgt5MW (tgtSD ++ ["DISCON.dll"]) (hpfx_tgt5 _)
      (hne_tgt5 _) (hdllD _ (by simp [dllNames]))
  rw [b5_eq, if_pos hdirD] at hE
  obtain ⟨hevE, hpostE⟩ :=
    e_fold_post (listdir fsD src5MW) (listdir_nodup fsD src5MW) fsD fs' hE
  -- frame facts
  have hnW5_cwd : ∀ (f : String), ¬ W5 (listdir fsD src5MW) (["cwd", f]) := by
    rintro f ⟨m, -, hp⟩
    exact not_prefix_of_get?_ne 0 "r" "cwd"
      (show (tgt5MW ++ [m]).get? 0 = some "r" from rfl)
      (show (["cwd", f] : FsPath).get? 0 = some "cwd" from rfl)
      (by decide) hp
  have hcwd' : ∀ f : String, lookupFile fs' (["cwd", f]) = none := by
    intro f
    rw [hevE.1 _ (hnW5_cwd f),
      hevD.1 _ (not_prefix_of_get?_ne 0 "r" "cwd"
        (show tgtSD.get? 0 = some "r" from rfl)
        (show (["cwd", f] : FsPath).get? 0 = some "cwd" from rfl) (by decide)),
      hfsC,
      lookupFile_setFile_ne _ _ _ _ (ne_of_get?_ne 0 "cwd" "r"
        (show (["cwd", f] : FsPath).get? 0 = some "cwd" from rfl)
        (show (matTb ++ ["beam_props.inp"]).get? 0 = some "r" from rfl)
        (by decide)),
      lookupFile_setFile_ne _ _ _ _ (ne_of_get?_ne 0 "cwd" "r"
        (show (["cwd", f] : FsPath).get? 0 = some "cwd" from rfl)
        (show (matTb ++ ["bd_primary.inp"]).get? 0 = some "r" from rfl)
        (by decide)),
      lookupFile_setFile_ne _ _ _ _ (ne_of_get?_ne 0 "cwd" "r"
        (show (["cwd", f] : FsPath).get? 0 = some "cwd" from rfl)
        (show (matTb ++ ["bd_driver.inp"]).get? 0 = some "r" from rfl)
        (by decide)),
      hevB.1 _ (not_prefix_of_get?_ne 0 "r" "cwd"
        (show matTb.get? 0 = some "r" from rfl)
        (show (["cwd", f] : FsPath).get? 0 = some "cwd" from rfl) (by decide))]
    exact hcwd f
  -- the three beamdyn files keep their content into the final state
  have hnW5_inp : ∀ x : String, ¬ W5 (listdir fsD src5MW) (matInp ++ [x]) := by
    rintro x ⟨m, -, hp⟩
    exact not_prefix_of_get?_ne 1 "build" "reg_tests"
      (show (tgt5MW ++ [m]).get? 1 = some "build" from rfl)
      (show (matInp ++ [x]).get? 1 = some "reg_tests" from rfl)
      (by decide) hp
  have hnW5_tb : ∀ x : String, ¬ W5 (listdir fsD src5MW) (matTb ++ [x]) := by
    rintro x ⟨m, -, hp⟩
    exact not_prefix_of_get?_ne 3 "5MW_Baseline" "bd_curved_beam"
      (show (tgt5MW ++ [m]).get? 3 = some "5MW_Baseline" from rfl)
      (show (matTb ++ [x]).get? 3 = some "bd_curved_beam" from rfl)
      (by decide) hp
  have hnSD_inp : ∀ x : String, ¬ tgtSD <+: matInp ++ [x] := fun x =>
    not_prefix_of_get?_ne 1 "build" "reg_tests"
      (show tgtSD.get? 1 = some "build" from rfl)
      (show (matInp ++ [x]).get? 1 = some "reg_tests" from rfl) (by decide)
  have hnSD_tb : ∀ x : String, ¬ tgtSD <+: matTb ++ [x] := fun x =>
    not_prefix_of_get?_ne 3 "5MW_Baseline" "bd_curved_beam"
      (show tgtSD.get? 3 = some "5MW_Baseline" from rfl)
      (show (matTb ++ [x]).get? 3 = some "bd_curved_beam" from rfl) (by decide)
  have hsrc1 : lookupFile fs' (matInp ++ ["bd_driver.inp"]) = some c1 := by
    rw [hevE.1 _ (hnW5_inp _), hevD.1 _ (hnSD_inp _), hfsC,
      lookupFile_setFile_ne _ _ _ _ (by decide),
      lookupFile_setFile_ne _ _ _ _ (by decide),
      lookupFile_setFile_ne _ _ _ _ (by decide)]
    exact hc1
  have hsrc2 : lookupFile fs' (matInp ++ ["bd_primary.inp"]) = some c2 := by
    rw [hevE.1 _ (hnW5_inp _), hevD.1 _ (hnSD_inp _), hfsC,
      lookupFile_setFile_ne _ _ _ _ (by decide),
      lookupFile_setFile_ne _ _ _ _ (by decide),
      lookupFile_setFile_ne _ _ _ _ (by decide)]
    exact hc2
  have hsrc3 : lookupFile fs' (matInp ++ ["beam_props.inp"]) = some c3 := by
    rw [hevE.1 _ (hnW5_inp _), hevD.1 _ (hnSD_inp _), hfsC,
      lookupFile_setFile_ne _ _ _ _ (by decide),
      lookupFile_setFile_ne _ _ _ _ (by decide),
      lookupFile_setFile_ne _ _ _ _ (by decide)]
    exact hc3
  have htgt1 : lookupFile fs' (matTb ++ ["bd_driver.inp"]) = some c1 := by
    rw [hevE.1 _ (hnW5_tb _), hevD.1 _ (hnSD_tb _), hfsC,
      lookupFile_setFile_ne _ _ _ _ (by decide),
      lookupFile_setFile_ne _ _ _ _ (by decide)]
    exact lookupFile_setFile_self fsB _ c1
  have htgt2 : lookupFile fs' (matTb ++ ["bd_primary.inp"]) = some c2 := by
    rw [hevE.1 _ (hnW5_tb _), hevD.1 _ (hnSD_tb _), hfsC,
      lookupFile_setFile_ne _ _ _ _ (by decide)]
    exact lookupFile_setFile_self _ _ c2
  have htgt3 : lookupFile fs' (matTb ++ ["beam_props.inp"]) = some c3 := by
    rw [hevE.1 _ (hnW5_tb _), hevD.1 _ (hnSD_tb _), hfsC]
    exact lookupFile_setFile_self _ _ c3
  -- DLLs stay present
  have hdll' : ∀ n ∈ dllNames, (lookupFile fs' (tgtSD ++ [n])).isSome :=
    fun n hn => evolvesP_isSome_mono hevE _ (hdllD n hn)
  -- the test directory and the 5MW target are directories in the end
  have hdirTb : isdir fs' matTb = true := by
    apply isdir_of_key fs' matTb (matTb ++ ["bd_driver.inp"])
      (prefix_append_all matTb _) (by decide)
    simp [htgt1]
  have hdir5 : isdir fs' tgt5MW = true :=
    isdir_of_key fs' tgt5MW (tgtSD ++ ["DISCON.dll"]) (hpfx_tgt5 _)
      (hne_tgt5 _) (hdll' _ (by simp [dllNames]))
  -- the source listing is unchanged
  have hlist : listdir fs' src5MW = listdir fsD src5MW := by
    apply evolvesP_listdir_frame hevE
    rintro k ⟨m, -, hp⟩
    exact childName_none_of_not_pref
      (not_prefix_of_under 1 "build" "reg_tests"
        (show (tgt5MW ++ [m]).get? 1 = some "build" from rfl)
        (show src5MW.get? 1 = some "reg_tests" from rfl) (by decide) hp)
  -- second run: every step is the identity
  have hB2 : build_test_directory_step ⟨["cwd"], ign⟩ fs' (matInp, matTb) = .ok fs' := by
    simp only [build_test_directory_step, hdirTb, if_true, ite_true]
    exact cwd_fold_noop matInp matTb fs' (listdir fs' matInp) hcwd'
  have hC2 : exceptFoldl (fun g f => copyIntoDir g (matInp ++ [f]) matTb)
      fs' bdFiles = .ok fs' :=
    bd_fold_noop fs' c1 c2 c3 hsrc1 htgt1 hsrc2 htgt2 hsrc3 htgt3
  have hD2 : Executor.check_5MW_dll_files exMat fs' = .ok fs' :=
    check_5MW_noop fs' hdll'
  have hE2 : Executor.build_5MW_directories exMat fs' = .ok fs' := by
    rw [b5_eq, if_pos hdir5, hlist]
    exact e_fold_noop (listdir fsD src5MW) fs' hpostE
  exact pipeline_elim ign fs' fs' fs' fs' fs' hB2 hC2 hD2 hE2

/-- Witness for the amended C7: a second run from the state `runMat0`
produced by the first materialization of `fs0` succeeds and returns that
state unchanged. -/
theorem c7_idempotent_witness :
    Executor.build_test_output_directories ⟨["cwd"], fun _ => false⟩ exMat
      runMat0 = .ok runMat0 :=
  c7_idempotent (fun _ => false) fs0 runMat0
    (by intro f; simp [fs0, lookupFile, matInp, srcSD, src5MW, tgt5MW])
    (by decide)
